import Mathlib

/-!
Verification of the dual-simplex utility layer of HiGHS
(src/simplex/HSimplex.cpp) against its specification.

The C++ code is shallowly embedded: `double` values are modelled as exact
rationals (`ℚ`), `int` values as `ℤ` (or `ℕ` for array indices and sizes),
C++ `std::vector` data of the LP as Lean `List`s, and the solver work arrays
as total functions `ℕ → ℚ` / `ℕ → ℤ` updated with `Function.update`.  The
deterministic random generator `HighsRandom` (whose code is outside the
covered sources) is modelled as abstract streams of draws with a cursor that
each call advances.  Library functions `sqrt`/`log`/`pow` from `<cmath>` are
modelled as function parameters where they occur.
-/

namespace HSimplex

/-- Sentinel for infinite bounds: `HIGHS_CONST_INF = 1e30`. -/
def INF : ℚ := 10 ^ 30

/-! ## Status flags: HighsSimplexLpStatus -/

/-- The status-flag record `HighsSimplexLpStatus`. -/
structure SimplexLpStatus where
  valid : Bool
  is_transposed : Bool
  is_scaled : Bool
  is_permuted : Bool
  is_tightened : Bool
  has_basis : Bool
  has_matrix_col_wise : Bool
  has_matrix_row_wise : Bool
  has_factor_arrays : Bool
  has_dual_steepest_edge_weights : Bool
  has_nonbasic_dual_values : Bool
  has_basic_primal_values : Bool
  has_invert : Bool
  has_fresh_invert : Bool
  has_fresh_rebuild : Bool
  has_dual_objective_value : Bool
  deriving DecidableEq

/-- Embedding of `invalidate_simplex_lp_data`: clear the ten derived
validity bits, leaving the four pass flags and `valid` alone. -/
def invalidate_simplex_lp_data (s : SimplexLpStatus) : SimplexLpStatus :=
  { s with
    has_basis := false
    has_matrix_col_wise := false
    has_matrix_row_wise := false
    has_dual_steepest_edge_weights := false
    has_nonbasic_dual_values := false
    has_basic_primal_values := false
    has_invert := false
    has_fresh_invert := false
    has_fresh_rebuild := false
    has_dual_objective_value := false }

/-- The `LpAction` enumeration. -/
inductive LpAction where
  | TRANSPOSE
  | SCALE
  | PERMUTE
  | TIGHTEN
  | NEW_COSTS
  | NEW_BOUNDS
  | NEW_BASIS
  | NEW_COLS
  | NEW_ROWS
  | DEL_COLS
  | DEL_ROWS
  | DEL_ROWS_BASIS_OK
  deriving DecidableEq

/-- Embedding of `update_simplex_lp_status`: the switch over `LpAction`. -/
def update_simplex_lp_status (s : SimplexLpStatus) : LpAction → SimplexLpStatus
  | LpAction.TRANSPOSE =>
      invalidate_simplex_lp_data { s with is_transposed := true }
  | LpAction.SCALE =>
      invalidate_simplex_lp_data { s with is_scaled := true }
  | LpAction.PERMUTE =>
      invalidate_simplex_lp_data { s with is_permuted := true }
  | LpAction.TIGHTEN =>
      invalidate_simplex_lp_data { s with is_tightened := true }
  | LpAction.NEW_COSTS =>
      { s with
        has_nonbasic_dual_values := false
        has_fresh_rebuild := false
        has_dual_objective_value := false }
  | LpAction.NEW_BOUNDS =>
      { s with
        has_basic_primal_values := false
        has_fresh_rebuild := false
        has_dual_objective_value := false }
  | LpAction.NEW_BASIS => invalidate_simplex_lp_data s
  | LpAction.NEW_COLS => invalidate_simplex_lp_data s
  | LpAction.NEW_ROWS => invalidate_simplex_lp_data s
  | LpAction.DEL_COLS => invalidate_simplex_lp_data s
  | LpAction.DEL_ROWS => invalidate_simplex_lp_data s
  | LpAction.DEL_ROWS_BASIS_OK => s

/-! ## The LP and the model object -/

/-- The LP data `HighsLp`: a column-compressed matrix, cost and bound
vectors, objective sense and offset. -/
structure HighsLp where
  numCol : ℕ
  numRow : ℕ
  Astart : List ℕ
  Aindex : List ℕ
  Avalue : List ℚ
  colCost : List ℚ
  colLower : List ℚ
  colUpper : List ℚ
  rowLower : List ℚ
  rowUpper : List ℚ
  sense : ℤ
  offset : ℚ
  deriving DecidableEq

/-- Scaling factors `HighsScale`. -/
structure HighsScale where
  col : List ℚ
  row : List ℚ
  cost : ℚ
  deriving DecidableEq

/-- The basis `HighsBasis`: nonbasic flags and moves over the extended
variable set `0 .. numCol+numRow-1`, and the basic variable of each row. -/
structure HighsBasis where
  valid : Bool
  basicIndex : ℕ → ℕ
  nonbasicFlag : ℕ → ℤ
  nonbasicMove : ℕ → ℤ

/-- The solver work data `HighsSimplexInfo` used by the embedded
functions. -/
structure HighsSimplexInfo where
  workCost : ℕ → ℚ
  workDual : ℕ → ℚ
  workShift : ℕ → ℚ
  workLower : ℕ → ℚ
  workUpper : ℕ → ℚ
  workRange : ℕ → ℚ
  workValue : ℕ → ℚ
  baseLower : ℕ → ℚ
  baseUpper : ℕ → ℚ
  baseValue : ℕ → ℚ
  numColPermutation : List ℕ
  numTotPermutation : List ℕ
  numTotRandomValue : ℕ → ℚ
  num_basic_logicals : ℤ
  update_count : ℤ
  update_limit : ℤ
  costs_perturbed : ℤ
  perturb_costs : ℤ
  dual_feasibility_tolerance : ℚ
  dualObjectiveValue : ℚ
  updatedDualObjectiveValue : ℚ

/-- The random generator `HighsRandom`, modelled as abstract streams: a
stream of integer draws for `integer()` and a stream of fractions in
`[0,1)` for `fraction()`, each with a cursor.  `initialise()` resets both
cursors, reproducing the generator's deterministic restart. -/
structure HighsRandomState where
  integerStream : ℕ → ℕ
  fractionStream : ℕ → ℚ
  integerIdx : ℕ
  fractionIdx : ℕ

/-- Draw `random.fraction()`: the value drawn and the advanced state. -/
def HighsRandomState.fraction (r : HighsRandomState) : ℚ × HighsRandomState :=
  (r.fractionStream r.fractionIdx, { r with fractionIdx := r.fractionIdx + 1 })

/-- Reset `random.initialise()`. -/
def HighsRandomState.initialise (r : HighsRandomState) : HighsRandomState :=
  { r with integerIdx := 0, fractionIdx := 0 }

/-- The slice of `HighsModelObject` that the embedded functions read and
write. -/
structure HighsModelObject where
  lp : HighsLp
  simplex_lp : HighsLp
  scale : HighsScale
  simplex_info : HighsSimplexInfo
  simplex_basis : HighsBasis
  simplex_lp_status : SimplexLpStatus
  random : HighsRandomState

/-! ## compute_dual_objective_value -/

/-- Embedding of `compute_dual_objective_value`: sum
`workValue[i]*workDual[i]` over the variables whose `nonbasicFlag` is
truthy (nonzero); for `phase != 1` multiply by the cost scale and subtract
the LP offset; set `has_dual_objective_value`. -/
def compute_dual_objective_value (m : HighsModelObject) (phase : ℤ) :
    HighsModelObject :=
  let numTot := m.simplex_lp.numCol + m.simplex_lp.numRow
  let sum : ℚ :=
    ∑ i ∈ Finset.range numTot,
      if m.simplex_basis.nonbasicFlag i ≠ 0 then
        m.simplex_info.workValue i * m.simplex_info.workDual i
      else 0
  let v : ℚ := if phase ≠ 1 then sum * m.scale.cost - m.simplex_lp.offset else sum
  { m with
    simplex_info := { m.simplex_info with dualObjectiveValue := v }
    simplex_lp_status :=
      { m.simplex_lp_status with has_dual_objective_value := true } }

/-! ## initialise_basic_index -/

/-- Embedding of `initialise_basic_index`.  The scan fills `basicIndex`
with the variables whose `nonbasicFlag` is falsy and counts them.  The
returned triple is (the model with the new `basicIndex`, the count of
basic variables, the argument of the final `assert`).  In the source the
final statement is `assert(num_basic_variables = simplex_lp.numRow_ - 1)`:
in C `=` is assignment, so the asserted expression is the assigned value
`numRow_ - 1`, whatever was counted; the assertion succeeds exactly when
that value is nonzero. -/
def initialise_basic_index (m : HighsModelObject) :
    HighsModelObject × ℕ × ℤ :=
  let numTot := m.simplex_lp.numCol + m.simplex_lp.numRow
  let scan :=
    (List.range numTot).foldl
      (fun (acc : (ℕ → ℕ) × ℕ) var =>
        if m.simplex_basis.nonbasicFlag var = 0 then
          (Function.update acc.1 acc.2 var, acc.2 + 1)
        else acc)
      (m.simplex_basis.basicIndex, 0)
  let finalAssertValue : ℤ := (m.simplex_lp.numRow : ℤ) - 1
  ({ m with simplex_basis := { m.simplex_basis with basicIndex := scan.1 } },
   scan.2, finalAssertValue)

/-! ## compute_factor -/

/-- The outcome of `factor.build()` (HFactor is outside the covered
sources): the returned rank deficiency, with the factorization contents
abstracted away. -/
structure BuildResult where
  rankDeficiency : ℤ
  deriving DecidableEq

/-- Embedding of `compute_factor`.  In the source the whole
`if (rankDeficiency)` block is commented out — no call of
`handle_rank_deficiency` (itself commented out), no status change, no
second `build()`, no early return — so the function ignores the rank
deficiency, zeroes `update_count`, marks `has_invert` and
`has_fresh_invert`, and returns 0. -/
def compute_factor (m : HighsModelObject) (build : BuildResult) :
    HighsModelObject × ℤ :=
  let _rankDeficiency := build.rankDeficiency
  let m :=
    { m with simplex_info := { m.simplex_info with update_count := 0 } }
  ({ m with
      simplex_lp_status :=
        { m.simplex_lp_status with has_invert := true, has_fresh_invert := true } },
   0)

/-! ## update_pivots -/

/-- Embedding of `update_pivots`, the basis mutation of a pivot: the
entering variable `columnIn` replaces `basicIndex[rowOut]`, the flags,
moves, base bounds and the outgoing variable's value are set, the dual
objective update and `update_count` accumulate, the stored
`num_basic_logicals` is adjusted by the source's two `columnOut/columnIn <
numCol` tests, and the invert/rebuild freshness flags are cleared. -/
def update_pivots (m : HighsModelObject) (columnIn rowOut : ℕ)
    (sourceOut : ℤ) : HighsModelObject :=
  let info := m.simplex_info
  let basis := m.simplex_basis
  let columnOut := basis.basicIndex rowOut
  -- Incoming variable
  let basicIndex := Function.update basis.basicIndex rowOut columnIn
  let nonbasicFlag := Function.update basis.nonbasicFlag columnIn 0
  let nonbasicMove := Function.update basis.nonbasicMove columnIn 0
  let baseLower := Function.update info.baseLower rowOut (info.workLower columnIn)
  let baseUpper := Function.update info.baseUpper rowOut (info.workUpper columnIn)
  -- Outgoing variable: value and move from the bound pattern and sourceOut
  let nonbasicFlag := Function.update nonbasicFlag columnOut 1
  let workValue :=
    Function.update info.workValue columnOut
      (if info.workLower columnOut = info.workUpper columnOut then
        info.workLower columnOut
      else if sourceOut = -1 then info.workLower columnOut
      else info.workUpper columnOut)
  let nonbasicMove :=
    Function.update nonbasicMove columnOut
      (if info.workLower columnOut = info.workUpper columnOut then 0
      else if sourceOut = -1 then 1
      else -1)
  let nwValue := workValue columnOut
  let vrDual := info.workDual columnOut
  let dlDualObjectiveValue := nwValue * vrDual
  let num_basic_logicals :=
    info.num_basic_logicals
      + (if columnOut < m.simplex_lp.numCol then -1 else 0)
      + (if columnIn < m.simplex_lp.numCol then 1 else 0)
  { m with
    simplex_basis :=
      { basis with
        basicIndex := basicIndex
        nonbasicFlag := nonbasicFlag
        nonbasicMove := nonbasicMove }
    simplex_info :=
      { info with
        baseLower := baseLower
        baseUpper := baseUpper
        workValue := workValue
        updatedDualObjectiveValue :=
          info.updatedDualObjectiveValue + dlDualObjectiveValue
        update_count := info.update_count + 1
        num_basic_logicals := num_basic_logicals }
    simplex_lp_status :=
      { m.simplex_lp_status with
        has_invert := false
        has_fresh_invert := false
        has_fresh_rebuild := false } }

/-- The first invariant checked by `nonbasic_flag_basic_index_ok`: the
number of variables of the extended set whose `nonbasicFlag` is falsy. -/
def num_basic_variables (m : HighsModelObject) : ℕ :=
  ((Finset.range (m.simplex_lp.numCol + m.simplex_lp.numRow)).filter
    (fun var => m.simplex_basis.nonbasicFlag var = 0)).card

/-- The second invariant checked by `nonbasic_flag_basic_index_ok`: every
row's basic variable has a falsy `nonbasicFlag`. -/
def basic_index_flags_ok (m : HighsModelObject) : Prop :=
  ∀ row < m.simplex_lp.numRow,
    m.simplex_basis.nonbasicFlag (m.simplex_basis.basicIndex row) = 0

instance (m : HighsModelObject) : Decidable (basic_index_flags_ok m) :=
  Nat.decidableBallLT _ _

/-- The count that `setup_num_basic_logicals` computes: the rows whose
basic variable is a logical (`basicIndex[i] >= numCol`). -/
def count_basic_logicals (m : HighsModelObject) : ℕ :=
  ((Finset.range m.simplex_lp.numRow).filter
    (fun i => m.simplex_lp.numCol ≤ m.simplex_basis.basicIndex i)).card

/-! ## flip_bound and correct_dual -/

/-- Embedding of `flip_bound`: negate `nonbasicMove[iCol]` and set
`workValue[iCol]` to the bound the new move points at. -/
def flip_bound (m : HighsModelObject) (iCol : ℕ) : HighsModelObject :=
  let move := -m.simplex_basis.nonbasicMove iCol
  { m with
    simplex_basis :=
      { m.simplex_basis with
        nonbasicMove := Function.update m.simplex_basis.nonbasicMove iCol move }
    simplex_info :=
      { m.simplex_info with
        workValue :=
          Function.update m.simplex_info.workValue iCol
            (if move = 1 then m.simplex_info.workLower iCol
             else m.simplex_info.workUpper iCol) } }

/-- One iteration of the `correct_dual` loop, for variable `i`, carrying
the model and the running `workCount` of free dual infeasibilities. -/
def correct_dual_step (tau_d : ℚ) (acc : HighsModelObject × ℕ) (i : ℕ) :
    HighsModelObject × ℕ :=
  let (m, workCount) := acc
  if m.simplex_basis.nonbasicFlag i ≠ 0 then
    if m.simplex_info.workLower i = -INF ∧ m.simplex_info.workUpper i = INF then
      -- FREE variable
      (m, workCount + (if |m.simplex_info.workDual i| ≥ tau_d then 1 else 0))
    else if (m.simplex_basis.nonbasicMove i : ℚ) * m.simplex_info.workDual i
        ≤ -tau_d then
      if m.simplex_info.workLower i ≠ -INF ∧ m.simplex_info.workUpper i ≠ INF then
        -- Boxed variable = flip
        (flip_bound m i, workCount)
      else
        -- Other variable = shift
        let m := { m with
          simplex_info := { m.simplex_info with costs_perturbed := 1 } }
        if m.simplex_basis.nonbasicMove i = (1 : ℤ) then
          let (random_v, random) := m.random.fraction
          let dual := (1 + random_v) * tau_d
          let shift := dual - m.simplex_info.workDual i
          ({ m with
             random := random
             simplex_info :=
               { m.simplex_info with
                 workDual := Function.update m.simplex_info.workDual i dual
                 workCost :=
                   Function.update m.simplex_info.workCost i
                     (m.simplex_info.workCost i + shift) } },
           workCount)
        else
          let (random_v, random) := m.random.fraction
          let dual := -(1 + random_v) * tau_d
          let shift := dual - m.simplex_info.workDual i
          ({ m with
             random := random
             simplex_info :=
               { m.simplex_info with
                 workDual := Function.update m.simplex_info.workDual i dual
                 workCost :=
                   Function.update m.simplex_info.workCost i
                     (m.simplex_info.workCost i + shift) } },
           workCount)
    else (m, workCount)
  else (m, workCount)

/-- Embedding of `correct_dual`: walk the extended variable set, counting
free dual infeasibilities, flipping infeasible boxed variables and
shifting the cost of the other infeasible nonbasic variables.  Returns
the model and the value written to `*free_infeasibility_count`. -/
def correct_dual (m : HighsModelObject) : HighsModelObject × ℕ :=
  let tau_d := m.simplex_info.dual_feasibility_tolerance
  let numTot := m.simplex_lp.numCol + m.simplex_lp.numRow
  (List.range numTot).foldl (correct_dual_step tau_d) (m, 0)

/-- The test that sends variable `i` of model `m` into the cost-shift
branch of `correct_dual` when the tolerance is `tau_d`: nonbasic, not
free, dual infeasible for its move, and not boxed. -/
def shift_trigger_tau (tau_d : ℚ) (m : HighsModelObject) (i : ℕ) : Prop :=
  m.simplex_basis.nonbasicFlag i ≠ 0 ∧
  ¬(m.simplex_info.workLower i = -INF ∧ m.simplex_info.workUpper i = INF) ∧
  (m.simplex_basis.nonbasicMove i : ℚ) * m.simplex_info.workDual i ≤ -tau_d ∧
  ¬(m.simplex_info.workLower i ≠ -INF ∧ m.simplex_info.workUpper i ≠ INF)

instance (tau_d : ℚ) (m : HighsModelObject) (i : ℕ) :
    Decidable (shift_trigger_tau tau_d m i) := by
  unfold shift_trigger_tau; infer_instance

/-- The cost-shift test of `correct_dual` at the model's own dual
feasibility tolerance. -/
def shift_trigger (m : HighsModelObject) (i : ℕ) : Prop :=
  shift_trigger_tau m.simplex_info.dual_feasibility_tolerance m i

instance (m : HighsModelObject) (i : ℕ) : Decidable (shift_trigger m i) := by
  unfold shift_trigger; infer_instance

/-- How many variables before `j` take the cost-shift branch of
`correct_dual` (each consumes one `random.fraction()` draw). -/
def shifts_before (m : HighsModelObject) (j : ℕ) : ℕ :=
  (List.range j).countP (fun i => decide (shift_trigger m i))

/-! ## Row-wise copy of the matrix

Both `transpose_simplex_lp` and `tighten_simplex_lp` turn the
column-compressed matrix into a row-wise copy with the same counting-sort
code; it is embedded once. -/

/-- The counting-sort construction of `(ARstart, ARindex, ARvalue)` from a
column-compressed matrix, as in the source: count the entries of each row
into `iwork`, prefix-sum into `ARstart`, then walk the columns placing
each entry at `iwork[iRow]++`. -/
def csr_of_csc (numCol numRow : ℕ) (Astart Aindex : List ℕ)
    (Avalue : List ℚ) : List ℕ × List ℕ × List ℚ :=
  let AcountX := Aindex.length
  let counts : List ℕ :=
    (List.range AcountX).foldl
      (fun iwork k =>
        let r := Aindex.getD k 0
        iwork.set r (iwork.getD r 0 + 1))
      (List.replicate numRow 0)
  let ARstart : List ℕ :=
    (List.range numRow).foldl
      (fun st i => st.set (i + 1) (st.getD i 0 + counts.getD i 0))
      (List.replicate (numRow + 1) 0)
  let fill :=
    (List.range numCol).foldl
      (fun (acc : List ℕ × List ℕ × List ℚ) iCol =>
        (List.range' (Astart.getD iCol 0)
            (Astart.getD (iCol + 1) 0 - Astart.getD iCol 0)).foldl
          (fun (acc : List ℕ × List ℕ × List ℚ) k =>
            let (iwork, ARindex, ARvalue) := acc
            let iRow := Aindex.getD k 0
            let iPut := iwork.getD iRow 0
            (iwork.set iRow (iPut + 1),
             ARindex.set iPut iCol,
             ARvalue.set iPut (Avalue.getD k 0)))
          acc)
      ((List.range numRow).map (fun i => ARstart.getD i 0),
       List.replicate AcountX 0,
       List.replicate AcountX (0 : ℚ))
  (ARstart, fill.2.1, fill.2.2)

/-! ## tighten_simplex_lp -/

/-- The bound `big_B = 1e10` beyond which a bound counts as infinite in
`tighten_simplex_lp`. -/
def big_B : ℚ := 10 ^ 10

/-- One pass of the constraint-propagation loop of `tighten_simplex_lp`
over all rows, returning the new column bounds and `numberChanged`. -/
def tighten_pass (numRow : ℕ) (ARstart ARindex : List ℕ) (ARvalue : List ℚ)
    (rowLower rowUpper : List ℚ) (b : List ℚ × List ℚ) :
    (List ℚ × List ℚ) × ℕ :=
  (List.range numRow).foldl
    (fun (acc : (List ℚ × List ℚ) × ℕ) iRow =>
      -- SKIP free rows
      if rowLower.getD iRow 0 < -big_B ∧ rowUpper.getD iRow 0 > big_B then acc
      else
        let colLower := acc.1.1
        let colUpper := acc.1.2
        let myStart := ARstart.getD iRow 0
        let myEnd := ARstart.getD (iRow + 1) 0
        -- Compute possible lower and upper ranges
        let ranges :=
          (List.range' myStart (myEnd - myStart)).foldl
            (fun (r : ℕ × ℕ × ℚ × ℚ) k =>
              let (ninfU, ninfL, xmaxU, xminL) := r
              let iCol := ARindex.getD k 0
              let value := ARvalue.getD k 0
              let upper := if value > 0 then colUpper.getD iCol 0
                else -(colLower.getD iCol 0)
              let lower := if value > 0 then colLower.getD iCol 0
                else -(colUpper.getD iCol 0)
              let value := |value|
              let (xmaxU, ninfU) :=
                if upper < big_B then (xmaxU + upper * value, ninfU)
                else (xmaxU, ninfU + 1)
              let (xminL, ninfL) :=
                if lower > -big_B then (xminL + lower * value, ninfL)
                else (xminL, ninfL + 1)
              (ninfU, ninfL, xmaxU, xminL))
            (0, 0, 0, 0)
        let ninfU := ranges.1
        let ninfL := ranges.2.1
        -- Build in a margin of error
        let xmaxU := ranges.2.2.1 + 1 / 10 ^ 8 * |ranges.2.2.1|
        let xminL := ranges.2.2.2 - 1 / 10 ^ 8 * |ranges.2.2.2|
        let xminLmargin : ℚ :=
          if |xminL| > 10 ^ 8 then 1 / 10 ^ 12 * |xminL| else 0
        let xmaxUmargin : ℚ :=
          if |xmaxU| > 10 ^ 8 then 1 / 10 ^ 12 * |xmaxU| else 0
        -- Skip redundant row
        let comp_U := xmaxU + (ninfU : ℚ) * 10 ^ 31
        let comp_L := xminL - (ninfL : ℚ) * 10 ^ 31
        if comp_U ≤ rowUpper.getD iRow 0 + 1 / 10 ^ 7 ∧
            comp_L ≥ rowLower.getD iRow 0 - 1 / 10 ^ 7 then acc
        else
          let row_L := rowLower.getD iRow 0
          let row_U := rowUpper.getD iRow 0
          -- Now see if we can tighten column bounds
          (List.range' myStart (myEnd - myStart)).foldl
            (fun (acc : (List ℚ × List ℚ) × ℕ) k =>
              let ((colLower, colUpper), numberChanged) := acc
              let value := ARvalue.getD k 0
              let iCol := ARindex.getD k 0
              let col_L := colLower.getD iCol 0
              let col_U := colUpper.getD iCol 0
              let (new_L, new_U) :=
                if value > 0 then
                  ((if row_L > -big_B ∧ ninfU ≤ 1 ∧ (ninfU = 0 ∨ col_U > big_B)
                    then (row_L - xmaxU) / value + (1 - (ninfU : ℚ)) * col_U -
                      xmaxUmargin
                    else -INF),
                   (if row_U < big_B ∧ ninfL ≤ 1 ∧ (ninfL = 0 ∨ col_L < -big_B)
                    then (row_U - xminL) / value + (1 - (ninfL : ℚ)) * col_L +
                      xminLmargin
                    else INF))
                else
                  ((if row_U < big_B ∧ ninfL ≤ 1 ∧ (ninfL = 0 ∨ col_U > big_B)
                    then (row_U - xminL) / value + (1 - (ninfL : ℚ)) * col_U -
                      xminLmargin
                    else -INF),
                   (if row_L > -big_B ∧ ninfU ≤ 1 ∧ (ninfU = 0 ∨ col_L < -big_B)
                    then (row_L - xmaxU) / value + (1 - (ninfU : ℚ)) * col_L +
                      xmaxUmargin
                    else INF))
              let (colUpper, numberChanged) :=
                if new_U < col_U - 1 / 10 ^ 12 ∧ new_U < big_B then
                  (colUpper.set iCol (max new_U col_L), numberChanged + 1)
                else (colUpper, numberChanged)
              let (colLower, numberChanged) :=
                if new_L > col_L + 1 / 10 ^ 12 ∧ new_L > -big_B then
                  (colLower.set iCol (min new_L col_U), numberChanged + 1)
                else (colLower, numberChanged)
              ((colLower, colUpper), numberChanged))
            acc)
    (b, 0)

/-- The outer `for(;;)` loop of `tighten_simplex_lp`: stop when a pass
changes nothing, and after at most 11 passes (`iPass > 10` breaks). -/
def tighten_iterate (numRow : ℕ) (ARstart ARindex : List ℕ)
    (ARvalue : List ℚ) (rowLower rowUpper : List ℚ) :
    ℕ → List ℚ × List ℚ → List ℚ × List ℚ
  | 0, b => b
  | fuel + 1, b =>
      let r := tighten_pass numRow ARstart ARindex ARvalue rowLower rowUpper b
      if r.2 = 0 then r.1
      else tighten_iterate numRow ARstart ARindex ARvalue rowLower rowUpper
        fuel r.1

/-- The final relaxation loop of `tighten_simplex_lp`, run against the
column bounds `colLower_0`, `colUpper_0` saved on entry. -/
def tighten_relax (numCol : ℕ) (colLower_0 colUpper_0 : List ℚ)
    (b : List ℚ × List ℚ) : List ℚ × List ℚ :=
  let useTolerance : ℚ := 1 / 10 ^ 3
  (List.range numCol).foldl
    (fun (b : List ℚ × List ℚ) iCol =>
      let (colLower, colUpper) := b
      if colUpper_0.getD iCol 0 > colLower_0.getD iCol 0 + useTolerance then
        let relax := 100 * useTolerance
        if colUpper.getD iCol 0 - colLower.getD iCol 0 <
            useTolerance + 1 / 10 ^ 8 then
          (colLower.set iCol
            (max (colLower_0.getD iCol 0) (colLower.getD iCol 0 - relax)),
           colUpper.set iCol
            (min (colUpper_0.getD iCol 0) (colUpper.getD iCol 0 + relax)))
        else
          let colUpper :=
            if colUpper.getD iCol 0 < colUpper_0.getD iCol 0 then
              colUpper.set iCol
                (min (colUpper.getD iCol 0 + relax) (colUpper_0.getD iCol 0))
            else colUpper
          let colLower :=
            if colLower.getD iCol 0 > colLower_0.getD iCol 0 then
              colLower.set iCol
                (min (colLower.getD iCol 0 - relax) (colLower_0.getD iCol 0))
            else colLower
          (colLower, colUpper)
      else b)
    b

/-- Embedding of `tighten_simplex_lp`: skip when `is_tightened`; otherwise
build the row-wise matrix, run up to 11 propagation passes, relax the
collapsed or tightened intervals, and set `is_tightened` (the source sets
the flag directly, without `update_simplex_lp_status`). -/
def tighten_simplex_lp (m : HighsModelObject) : HighsModelObject :=
  if m.simplex_lp_status.is_tightened then m
  else
    let lp := m.simplex_lp
    let csr := csr_of_csc lp.numCol lp.numRow lp.Astart lp.Aindex lp.Avalue
    let colLower_0 := lp.colLower
    let colUpper_0 := lp.colUpper
    let b :=
      tighten_iterate lp.numRow csr.1 csr.2.1 csr.2.2 lp.rowLower lp.rowUpper
        11 (lp.colLower, lp.colUpper)
    let b := tighten_relax lp.numCol colLower_0 colUpper_0 b
    { m with
      simplex_lp := { lp with colLower := b.1, colUpper := b.2 }
      simplex_lp_status := { m.simplex_lp_status with is_tightened := true } }

/-! ## transpose_simplex_lp -/

/-- The size test of `transpose_simplex_lp`:
`1.0 * primalNumCol / primalNumRow > 0.2` cancels the transposition.  For
`numRow = 0` the IEEE quotient is `+inf` (cancel) when `numCol > 0` and
`NaN` (compare false, proceed) when `numCol = 0`. -/
def transposeRatioCancel (numCol numRow : ℕ) : Bool :=
  if numRow = 0 then decide (0 < numCol)
  else decide ((numCol : ℚ) / (numRow : ℚ) > 1 / 5)

/-- The per-column conversion of a primal cost/bound triple into dual row
bounds, in the source's order: free, `x > 0`, `x < 0`, `x = 0`, otherwise
cancel (`none`). -/
def transpose_col_bounds (cost lower upper : ℚ) : Option (ℚ × ℚ) :=
  if lower = -INF ∧ upper = INF then some (cost, cost)
  else if lower = 0 ∧ upper = INF then some (-INF, cost)
  else if lower = -INF ∧ upper = 0 then some (cost, INF)
  else if lower = 0 ∧ upper = 0 then some (-INF, INF)
  else none

/-- The per-row conversion of primal row bounds into dual column bounds
and cost, in the source's order: `row = b`, `row < b`, `row > b`, free
row, otherwise cancel (`none`). -/
def transpose_row_data (lower upper : ℚ) : Option (ℚ × ℚ × ℚ) :=
  if lower = upper then some (-INF, INF, -lower)
  else if lower = -INF ∧ upper ≠ INF then some (-INF, 0, -upper)
  else if lower ≠ -INF ∧ upper = INF then some (0, INF, -lower)
  else if lower = -INF ∧ upper = INF then some (0, 0, 0)
  else none

/-- Embedding of `transpose_simplex_lp`.  Skip when already transposed;
cancel (returning the model untouched) on the size test or when a column
or row fails its dual-compatibility pattern; otherwise write the dual LP's
arrays into `simplex_lp` and record `LpAction::TRANSPOSE`.  The source
swaps only its local copies of `numCol`/`numRow`, so the fields
`simplex_lp.numCol` and `simplex_lp.numRow` are not written. -/
def transpose_simplex_lp (m : HighsModelObject) : HighsModelObject :=
  if m.simplex_lp_status.is_transposed then m
  else
    let primal_lp := m.lp
    let primalNumCol := primal_lp.numCol
    let primalNumRow := primal_lp.numRow
    if transposeRatioCancel primalNumCol primalNumRow then m
    else
      -- Convert primal cost to dual bound
      match (List.range primalNumCol).mapM (fun j =>
          transpose_col_bounds (primal_lp.colCost.getD j 0)
            (primal_lp.colLower.getD j 0) (primal_lp.colUpper.getD j 0)) with
      | none => m
      | some colData =>
        -- Convert primal row bound to dual variable cost
        match (List.range primalNumRow).mapM (fun i =>
            transpose_row_data (primal_lp.rowLower.getD i 0)
              (primal_lp.rowUpper.getD i 0)) with
        | none => m
        | some rowData =>
          let dualRowLower := colData.map Prod.fst
          let dualRowUpper := colData.map Prod.snd
          let dualColLower := rowData.map (fun t => t.1)
          let dualColUpper := rowData.map (fun t => t.2.1)
          let dualCost := rowData.map (fun t => t.2.2)
          -- We can now really transpose things
          let csr := csr_of_csc primalNumCol primalNumRow primal_lp.Astart
            primal_lp.Aindex primal_lp.Avalue
          { m with
            simplex_lp :=
              { m.simplex_lp with
                Astart := csr.1
                Aindex := csr.2.1
                Avalue := csr.2.2
                colLower := dualColLower
                colUpper := dualColUpper
                rowLower := dualRowLower
                rowUpper := dualRowUpper
                colCost := dualCost }
            simplex_lp_status :=
              update_simplex_lp_status m.simplex_lp_status LpAction.TRANSPOSE }

/-- The conditions under which `transpose_simplex_lp` actually transposes:
the size test passes and every column and row matches its pattern. -/
def transpose_ok (lp : HighsLp) : Prop :=
  transposeRatioCancel lp.numCol lp.numRow = false ∧
  (∀ j < lp.numCol,
    (transpose_col_bounds (lp.colCost.getD j 0) (lp.colLower.getD j 0)
      (lp.colUpper.getD j 0)).isSome) ∧
  (∀ i < lp.numRow,
    (transpose_row_data (lp.rowLower.getD i 0) (lp.rowUpper.getD i 0)).isSome)

instance (lp : HighsLp) : Decidable (transpose_ok lp) := by
  unfold transpose_ok; infer_instance

/-! ## scale_simplex_lp

The `<cmath>` calls are abstracted as parameters: `rt` for `sqrt` and
`twoRound` for `pow(2.0, floor(log(x)/ln2 + 0.5))`, the rounding of a
scale factor to the nearest power of two.  With the source's hard-wired
`originalScaling = true`, `alwCostScaling` is false and `scaleCosts` is
never called, so the cost scale stays 1. -/

/-- One of the six equilibration passes of `scale_simplex_lp`: from the
current row scales, compute the column scales and then the row scales by
geometric-mean equilibration, optionally folding each column's cost in. -/
def scale_search_pass (numCol numRow : ℕ) (Astart Aindex : List ℕ)
    (Avalue colCost : List ℚ) (includeCost : Bool) (rt : ℚ → ℚ)
    (rowScale : List ℚ) : List ℚ × List ℚ :=
  let step :=
    (List.range numCol).foldl
      (fun (acc : List ℚ × List ℚ × List ℚ) iCol =>
        let (colScale, rowMin, rowMax) := acc
        -- For column scale (find)
        let myCost := |colCost.getD iCol 0|
        let start : ℚ × ℚ :=
          if includeCost ∧ myCost ≠ 0 then
            (min INF myCost, max (1 / INF) myCost)
          else (INF, 1 / INF)
        let colMinMax :=
          (List.range' (Astart.getD iCol 0)
              (Astart.getD (iCol + 1) 0 - Astart.getD iCol 0)).foldl
            (fun (cm : ℚ × ℚ) k =>
              let value := |Avalue.getD k 0| * rowScale.getD (Aindex.getD k 0) 0
              (min cm.1 value, max cm.2 value))
            start
        let colScale := colScale.set iCol (1 / rt (colMinMax.1 * colMinMax.2))
        -- For row scale (only collect)
        let (rowMin, rowMax) :=
          (List.range' (Astart.getD iCol 0)
              (Astart.getD (iCol + 1) 0 - Astart.getD iCol 0)).foldl
            (fun (rm : List ℚ × List ℚ) k =>
              let iRow := Aindex.getD k 0
              let value := |Avalue.getD k 0| * colScale.getD iCol 0
              (rm.1.set iRow (min (rm.1.getD iRow 0) value),
               rm.2.set iRow (max (rm.2.getD iRow 0) value)))
            (rowMin, rowMax)
        (colScale, rowMin, rowMax))
      (List.replicate numCol 1, List.replicate numRow INF,
       List.replicate numRow (1 / INF))
  let colScale := step.1
  -- For row scale (find)
  let rowScale :=
    (List.range numRow).map
      (fun iRow => 1 / rt (step.2.1.getD iRow 0 * step.2.2.getD iRow 0))
  (colScale, rowScale)

/-- Embedding of `scale_simplex_lp`: skip when `is_scaled`; reset the
scales to 1; skip matrix scaling when all `|A_ij|` lie in `[0.2, 5]`
(recording `LpAction::SCALE` all the same); otherwise run six
equilibration passes, round the scales to powers of two with `twoRound`,
apply them to the matrix, bounds and costs, and record
`LpAction::SCALE`. -/
def scale_simplex_lp (rt twoRound : ℚ → ℚ) (m : HighsModelObject) :
    HighsModelObject :=
  if m.simplex_lp_status.is_scaled then m
  else
    let lp := m.simplex_lp
    let numCol := lp.numCol
    let numRow := lp.numRow
    let m :=
      { m with scale :=
        { col := List.replicate numCol 1, row := List.replicate numRow 1,
          cost := 1 } }
    -- Find out the range of matrix values
    let minmax :=
      (List.range (lp.Astart.getD numCol 0)).foldl
        (fun (mm : ℚ × ℚ) k =>
          let value := |lp.Avalue.getD k 0|
          (min mm.1 value, max mm.2 value))
        (INF, 0)
    let noScaling := minmax.1 ≥ 1 / 5 ∧ minmax.2 ≤ 5
    if noScaling then
      { m with
        simplex_lp_status :=
          update_simplex_lp_status m.simplex_lp_status LpAction.SCALE }
    else
      let minNzCost :=
        (List.range numCol).foldl
          (fun mc i =>
            if lp.colCost.getD i 0 ≠ 0 then min (|lp.colCost.getD i 0|) mc
            else mc)
          INF
      let includeCost := decide (minNzCost < 1 / 10)
      -- Search up to 6 times
      let scales :=
        (List.range 6).foldl
          (fun (sc : List ℚ × List ℚ) _ =>
            scale_search_pass numCol numRow lp.Astart lp.Aindex lp.Avalue
              lp.colCost includeCost rt sc.2)
          (List.replicate numCol 1, List.replicate numRow 1)
      -- Make it numerically better
      let colScale := scales.1.map twoRound
      let rowScale := scales.2.map twoRound
      -- Apply scaling to matrix and bounds
      let Avalue :=
        (List.range numCol).foldl
          (fun av iCol =>
            (List.range' (lp.Astart.getD iCol 0)
                (lp.Astart.getD (iCol + 1) 0 - lp.Astart.getD iCol 0)).foldl
              (fun (av : List ℚ) k =>
                av.set k (av.getD k 0 *
                  (colScale.getD iCol 0 *
                    rowScale.getD (lp.Aindex.getD k 0) 0)))
              av)
          lp.Avalue
      let colLower :=
        (List.range numCol).foldl
          (fun (l : List ℚ) iCol =>
            l.set iCol (l.getD iCol 0 /
              (if l.getD iCol 0 = -INF then 1 else colScale.getD iCol 0)))
          lp.colLower
      let colUpper :=
        (List.range numCol).foldl
          (fun (l : List ℚ) iCol =>
            l.set iCol (l.getD iCol 0 /
              (if l.getD iCol 0 = INF then 1 else colScale.getD iCol 0)))
          lp.colUpper
      let colCost :=
        (List.range numCol).foldl
          (fun (l : List ℚ) iCol => l.set iCol (l.getD iCol 0 * colScale.getD iCol 0))
          lp.colCost
      let rowLower :=
        (List.range numRow).foldl
          (fun (l : List ℚ) iRow =>
            l.set iRow (l.getD iRow 0 *
              (if l.getD iRow 0 = -INF then 1 else rowScale.getD iRow 0)))
          lp.rowLower
      let rowUpper :=
        (List.range numRow).foldl
          (fun (l : List ℚ) iRow =>
            l.set iRow (l.getD iRow 0 *
              (if l.getD iRow 0 = INF then 1 else rowScale.getD iRow 0)))
          lp.rowUpper
      { m with
        simplex_lp :=
          { lp with
            Avalue := Avalue
            colLower := colLower
            colUpper := colUpper
            colCost := colCost
            rowLower := rowLower
            rowUpper := rowUpper }
        scale := { m.scale with col := colScale, row := rowScale }
        simplex_lp_status :=
          update_simplex_lp_status m.simplex_lp_status LpAction.SCALE }

/-! ## permute_simplex_lp -/

/-- Swap two entries of a list. -/
def swap_entries (l : List ℕ) (i j : ℕ) : List ℕ :=
  let vi := l.getD i 0
  let vj := l.getD j 0
  (l.set i vj).set j vi

/-- The Fisher–Yates shuffle of `initialise_simplex_lp_random_vectors`:
start from the identity permutation of `n` indices and swap position `i`
(from `n-1` down to `1`) with position `random.integer() % (i+1)`.
Returns the permutation and the count of integer draws consumed. -/
def random_permutation (stream : ℕ → ℕ) (n : ℕ) : List ℕ × ℕ :=
  ((List.range' 1 (n - 1)).reverse).foldl
    (fun (acc : List ℕ × ℕ) i =>
      let j := stream acc.2 % (i + 1)
      (swap_entries acc.1 i j, acc.2 + 1))
    (List.range n, 0)

/-- Embedding of `initialise_simplex_lp_random_vectors`: re-initialise the
generator and draw the column permutation, re-initialise it again and draw
the permutation of all indices, then fill `numTotRandomValue` with
fractions. -/
def initialise_simplex_lp_random_vectors (m : HighsModelObject) :
    HighsModelObject :=
  let numCol := m.simplex_lp.numCol
  let numTot := m.simplex_lp.numCol + m.simplex_lp.numRow
  let random := m.random.initialise
  let colPerm := random_permutation random.integerStream numCol
  let random := random.initialise
  let totPerm := random_permutation random.integerStream numTot
  let numTotRandomValue : ℕ → ℚ := fun i =>
    if i < numTot then random.fractionStream i
    else m.simplex_info.numTotRandomValue i
  { m with
    simplex_info :=
      { m.simplex_info with
        numColPermutation := colPerm.1
        numTotPermutation := totPerm.1
        numTotRandomValue := numTotRandomValue }
    random := { random with integerIdx := totPerm.2, fractionIdx := numTot } }

/-- Embedding of `permute_simplex_lp`: skip when `is_permuted`; generate
the random vectors; permute the columns of the matrix, the column cost,
bound and scale vectors by `numColPermutation`; record
`LpAction::PERMUTE`.  The source leaves `Astart[numCol]` alone (it ends
equal to `countX` by construction). -/
def permute_simplex_lp (m : HighsModelObject) : HighsModelObject :=
  if m.simplex_lp_status.is_permuted then m
  else
    let m := initialise_simplex_lp_random_vectors m
    let lp := m.simplex_lp
    let numCol := lp.numCol
    let perm := m.simplex_info.numColPermutation
    let out :=
      (List.range numCol).foldl
        (fun (acc : (List ℕ × List ℕ × List ℚ) × (List ℚ × List ℚ × List ℚ × List ℚ) × ℕ) i =>
          let ((Astart, Aindex, Avalue), (colCost, colLower, colUpper, colScale),
               countX) := acc
          let fromCol := perm.getD i 0
          let Astart := Astart.set i countX
          let copy :=
            (List.range' (lp.Astart.getD fromCol 0)
                (lp.Astart.getD (fromCol + 1) 0 - lp.Astart.getD fromCol 0)).foldl
              (fun (c : (List ℕ × List ℚ) × ℕ) k =>
                let ((Aindex, Avalue), countX) := c
                ((Aindex.set countX (lp.Aindex.getD k 0),
                  Avalue.set countX (lp.Avalue.getD k 0)), countX + 1))
              ((Aindex, Avalue), countX)
          ((Astart, copy.1.1, copy.1.2),
           (colCost.set i (lp.colCost.getD fromCol 0),
            colLower.set i (lp.colLower.getD fromCol 0),
            colUpper.set i (lp.colUpper.getD fromCol 0),
            colScale.set i (m.scale.col.getD fromCol 0)),
           copy.2))
        ((lp.Astart, lp.Aindex, lp.Avalue),
         (lp.colCost, lp.colLower, lp.colUpper, m.scale.col), 0)
    { m with
      simplex_lp :=
        { lp with
          Astart := out.1.1
          Aindex := out.1.2.1
          Avalue := out.1.2.2
          colCost := out.2.1.1
          colLower := out.2.1.2.1
          colUpper := out.2.1.2.2.1 }
      scale := { m.scale with col := out.2.1.2.2.2 }
      simplex_lp_status :=
        update_simplex_lp_status m.simplex_lp_status LpAction.PERMUTE }

/-! ## initialise_cost -/

/-- Embedding of `initialise_phase2_col_cost` over the full column range:
`workCost[col] = sense * colCost[col]` and `workShift[col] = 0`. -/
def initialise_phase2_col_cost (m : HighsModelObject) : HighsModelObject :=
  { m with
    simplex_info :=
      { m.simplex_info with
        workCost := fun var =>
          if var < m.simplex_lp.numCol then
            (m.simplex_lp.sense : ℚ) * m.simplex_lp.colCost.getD var 0
          else m.simplex_info.workCost var
        workShift := fun var =>
          if var < m.simplex_lp.numCol then 0
          else m.simplex_info.workShift var } }

/-- Embedding of `initialise_phase2_row_cost` over the full row range:
zero cost and shift for the logicals. -/
def initialise_phase2_row_cost (m : HighsModelObject) : HighsModelObject :=
  { m with
    simplex_info :=
      { m.simplex_info with
        workCost := fun var =>
          if m.simplex_lp.numCol ≤ var ∧
              var < m.simplex_lp.numCol + m.simplex_lp.numRow then 0
          else m.simplex_info.workCost var
        workShift := fun var =>
          if m.simplex_lp.numCol ≤ var ∧
              var < m.simplex_lp.numCol + m.simplex_lp.numRow then 0
          else m.simplex_info.workShift var } }

/-- The magnitude `bigc` of `initialise_cost`: the largest column
working-cost magnitude, fourth-rooted (two `sqrt` calls, abstracted by
`rt`) when above 100. -/
def perturbation_bigc (rt : ℚ → ℚ) (numCol : ℕ) (workCost : ℕ → ℚ) : ℚ :=
  let bigc := (List.range numCol).foldl (fun b i => max b (|workCost i|)) 0
  if bigc > 100 then rt (rt bigc) else bigc

/-- The perturbation base of `initialise_cost`: `5e-7 * bigc`, with `bigc`
clamped to at most 1 when under 1% of the variables are boxed
(`workRange < 1e30`). -/
def perturbation_base (rt : ℚ → ℚ) (numCol numTot : ℕ) (workCost : ℕ → ℚ)
    (workRange : ℕ → ℚ) : ℚ :=
  let bigc := perturbation_bigc rt numCol workCost
  let boxedRate :=
    ((List.range numTot).foldl
      (fun a i => a + (if workRange i < INF then (1 : ℚ) else 0)) 0) /
      (numTot : ℚ)
  let bigc := if boxedRate < 1 / 100 then min bigc 1 else bigc
  5 / 10 ^ 7 * bigc

/-- Embedding of `initialise_cost`: copy the phase-2 costs, then (unless
skipped) perturb each structural's cost by `xpert` according to its bound
pattern and each logical's by `(0.5 - random) * 1e-12`, recording
`costs_perturbed`. -/
def initialise_cost (rt : ℚ → ℚ) (m : HighsModelObject) (perturb : ℤ) :
    HighsModelObject :=
  let m := initialise_phase2_col_cost m
  let m := initialise_phase2_row_cost m
  -- See if we want to skip perturbation
  let m :=
    { m with simplex_info := { m.simplex_info with costs_perturbed := 0 } }
  if perturb = 0 ∨ m.simplex_info.perturb_costs = 0 then m
  else
    let m :=
      { m with simplex_info := { m.simplex_info with costs_perturbed := 1 } }
    let numCol := m.simplex_lp.numCol
    let numTot := m.simplex_lp.numCol + m.simplex_lp.numRow
    let base :=
      perturbation_base rt numCol numTot m.simplex_info.workCost
        m.simplex_info.workRange
    -- Now do the perturbation
    let workCost : ℕ → ℚ := fun i =>
      if i < numCol then
        let lower := m.simplex_lp.colLower.getD i 0
        let upper := m.simplex_lp.colUpper.getD i 0
        let xpert := (|m.simplex_info.workCost i| + 1) * base *
          (1 + m.simplex_info.numTotRandomValue i)
        if lower = -INF ∧ upper = INF then
          -- Free - no perturb
          m.simplex_info.workCost i
        else if upper = INF then m.simplex_info.workCost i + xpert
        else if lower = -INF then m.simplex_info.workCost i + -xpert
        else if lower ≠ upper then
          m.simplex_info.workCost i +
            (if m.simplex_info.workCost i ≥ 0 then xpert else -xpert)
        else
          -- Fixed - no perturb
          m.simplex_info.workCost i
      else if i < numTot then
        m.simplex_info.workCost i +
          (1 / 2 - m.simplex_info.numTotRandomValue i) * (1 / 10 ^ 12)
      else m.simplex_info.workCost i
    { m with simplex_info := { m.simplex_info with workCost := workCost } }

/-- The working costs right after the phase-2 initialisation, before any
perturbation: what `initialise_cost` starts from. -/
def phase2_work_cost (m : HighsModelObject) : ℕ → ℚ :=
  (initialise_phase2_row_cost (initialise_phase2_col_cost m)).simplex_info.workCost

/-! ## Concrete states used by the witnesses and counterexamples -/

/-- An empty LP. -/
def baseLp : HighsLp where
  numCol := 0
  numRow := 0
  Astart := [0]
  Aindex := []
  Avalue := []
  colCost := []
  colLower := []
  colUpper := []
  rowLower := []
  rowUpper := []
  sense := 1
  offset := 0

/-- A status with no pass applied and no derived data. -/
def baseStatus : SimplexLpStatus where
  valid := true
  is_transposed := false
  is_scaled := false
  is_permuted := false
  is_tightened := false
  has_basis := false
  has_matrix_col_wise := false
  has_matrix_row_wise := false
  has_factor_arrays := false
  has_dual_steepest_edge_weights := false
  has_nonbasic_dual_values := false
  has_basic_primal_values := false
  has_invert := false
  has_fresh_invert := false
  has_fresh_rebuild := false
  has_dual_objective_value := false

/-- A status with no pass applied but every derived validity bit set. -/
def fullStatus : SimplexLpStatus :=
  { baseStatus with
      has_basis := true
      has_matrix_col_wise := true
      has_matrix_row_wise := true
      has_factor_arrays := true
      has_dual_steepest_edge_weights := true
      has_nonbasic_dual_values := true
      has_basic_primal_values := true
      has_invert := true
      has_fresh_invert := true
      has_fresh_rebuild := true
      has_dual_objective_value := true }

/-- All-zero work data at the default tolerances. -/
def baseInfo : HighsSimplexInfo where
  workCost := fun _ => 0
  workDual := fun _ => 0
  workShift := fun _ => 0
  workLower := fun _ => 0
  workUpper := fun _ => 0
  workRange := fun _ => 0
  workValue := fun _ => 0
  baseLower := fun _ => 0
  baseUpper := fun _ => 0
  baseValue := fun _ => 0
  numColPermutation := []
  numTotPermutation := []
  numTotRandomValue := fun _ => 0
  num_basic_logicals := 0
  update_count := 0
  update_limit := 5000
  costs_perturbed := 0
  perturb_costs := 1
  dual_feasibility_tolerance := 1 / 10 ^ 7
  dualObjectiveValue := 0
  updatedDualObjectiveValue := 0

/-- A degenerate random state: every draw is 0. -/
def baseRandom : HighsRandomState where
  integerStream := fun _ => 0
  fractionStream := fun _ => 0
  integerIdx := 0
  fractionIdx := 0

/-- A minimal model object to override per example. -/
def baseModel : HighsModelObject where
  lp := baseLp
  simplex_lp := baseLp
  scale := { col := [], row := [], cost := 1 }
  simplex_info := baseInfo
  simplex_basis :=
    { valid := true
      basicIndex := fun _ => 0
      nonbasicFlag := fun _ => 0
      nonbasicMove := fun _ => 0 }
  simplex_lp_status := baseStatus
  random := baseRandom

/-- One structural, one row; the logical is basic: a valid basis for a
pivot bringing variable 0 in on row 0. -/
def pivotModel : HighsModelObject :=
  { baseModel with
      simplex_lp := { baseLp with numCol := 1, numRow := 1 }
      simplex_basis :=
        { baseModel.simplex_basis with
            basicIndex := fun _ => 1
            nonbasicFlag := fun v => if v = 0 then 1 else 0 }
      simplex_info := { baseInfo with num_basic_logicals := 1 } }

/-- One structural, two rows, and `basicIndex = [1, 1]` listing variable 1
twice: both claimed invariants hold (variables 1 and 2 are basic, so the
count is `numRow = 2`, and `nonbasicFlag[basicIndex[r]] = 0` for both
rows) but `basicIndex` is not injective. -/
def cexPivotModel : HighsModelObject :=
  { baseModel with
      simplex_lp := { baseLp with numCol := 1, numRow := 2 }
      simplex_basis :=
        { baseModel.simplex_basis with
            basicIndex := fun _ => 1
            nonbasicFlag := fun v => if v = 0 then 1 else 0 } }

/-- A single nonbasic structural with only its lower bound finite, move
`+1`, and a dual of `-1`, far below `-tau_d`: `correct_dual` must take the
cost-shift branch on it.  The fraction stream yields `1/2`. -/
def dualCorrectionModel : HighsModelObject :=
  { baseModel with
      simplex_lp := { baseLp with numCol := 1, numRow := 0 }
      simplex_basis :=
        { baseModel.simplex_basis with
            nonbasicFlag := fun v => if v = 0 then 1 else 0
            nonbasicMove := fun v => if v = 0 then 1 else 0 }
      simplex_info :=
        { baseInfo with
            workLower := fun _ => 0
            workUpper := fun _ => INF
            workDual := fun v => if v = 0 then -1 else 0 }
      random := { baseRandom with fractionStream := fun _ => 1 / 2 } }

/-- The LP `x0 + x1 ≥ 1`, `x0 ∈ [0, 10]`, `x1 ∈ [0, 0.95]`: propagation
tightens `colLower[0]` to about `0.05`, and the final relaxation then
moves it to about `-0.05`, outside the original interval. -/
def tightenLp : HighsLp where
  numCol := 2
  numRow := 1
  Astart := [0, 1, 2]
  Aindex := [0, 0]
  Avalue := [1, 1]
  colCost := [0, 0]
  colLower := [0, 0]
  colUpper := [10, 19 / 20]
  rowLower := [1]
  rowUpper := [INF]
  sense := 1
  offset := 0

/-- The model holding `tightenLp`, with every derived validity bit set. -/
def tightenModel : HighsModelObject :=
  { baseModel with
      lp := tightenLp
      simplex_lp := tightenLp
      scale := { col := [1, 1], row := [1], cost := 1 }
      simplex_lp_status := fullStatus }

/-- A one-column, one-row LP on which `tighten_simplex_lp` completes
without changing any bound. -/
def prepLp : HighsLp where
  numCol := 1
  numRow := 1
  Astart := [0, 1]
  Aindex := [0]
  Avalue := [1]
  colCost := [0]
  colLower := [0]
  colUpper := [1]
  rowLower := [0]
  rowUpper := [INF]
  sense := 1
  offset := 0

/-- The model holding `prepLp`, with every derived validity bit set. -/
def prepModel : HighsModelObject :=
  { baseModel with
      lp := prepLp
      simplex_lp := prepLp
      scale := { col := [1], row := [1], cost := 1 }
      simplex_lp_status := fullStatus }

/-- A thin LP (1 column, 5 rows) whose bounds match the transposition
patterns: the column is nonnegative and every row is bounded below. -/
def transLp : HighsLp where
  numCol := 1
  numRow := 5
  Astart := [0, 1]
  Aindex := [0]
  Avalue := [1]
  colCost := [3]
  colLower := [0]
  colUpper := [INF]
  rowLower := [0, 0, 0, 0, 0]
  rowUpper := [INF, INF, INF, INF, INF]
  sense := 1
  offset := 0

/-- The model holding `transLp`. -/
def transModel : HighsModelObject :=
  { baseModel with lp := transLp, simplex_lp := transLp }

/-- A one-column, one-row model for the cost-perturbation witness: cost 2,
lower bound 0, no upper bound, every random fraction `1/2`, every
`workRange` 0 (so the boxed rate is 1). -/
def costModel : HighsModelObject :=
  { baseModel with
      simplex_lp :=
        { baseLp with
            numCol := 1
            numRow := 1
            colCost := [2]
            colLower := [0]
            colUpper := [INF] }
      simplex_info :=
        { baseInfo with numTotRandomValue := fun _ => 1 / 2 } }

/-- A one-column, one-row model for the dual-objective witness: variable 0
is nonbasic with value 3 and dual 5, the cost scale is 2, the offset 7. -/
def dualObjModel : HighsModelObject :=
  { baseModel with
      simplex_lp := { baseLp with numCol := 1, numRow := 1, offset := 7 }
      scale := { col := [1], row := [1], cost := 2 }
      simplex_basis :=
        { baseModel.simplex_basis with
            nonbasicFlag := fun v => if v = 0 then 1 else 0 }
      simplex_info :=
        { baseInfo with
            workValue := fun v => if v = 0 then 3 else 0
            workDual := fun v => if v = 0 then 5 else 0 } }

/-! ## Loop lemmas for correct_dual -/

/-- Effects of one `correct_dual` iteration: only the processed variable's
dual, cost, move and value can change, `workShift` and the bounds and
flags never do, one random draw is consumed exactly on the cost-shift
branch, and `costs_perturbed` is set exactly there. -/
theorem correct_dual_step_effects (tau : ℚ) (m : HighsModelObject)
    (w i : ℕ) :
    (correct_dual_step tau (m, w) i).1.simplex_info.workShift =
      m.simplex_info.workShift ∧
    (correct_dual_step tau (m, w) i).1.simplex_info.workLower =
      m.simplex_info.workLower ∧
    (correct_dual_step tau (m, w) i).1.simplex_info.workUpper =
      m.simplex_info.workUpper ∧
    (correct_dual_step tau (m, w) i).1.simplex_basis.nonbasicFlag =
      m.simplex_basis.nonbasicFlag ∧
    (correct_dual_step tau (m, w) i).1.simplex_lp = m.simplex_lp ∧
    (correct_dual_step tau (m, w) i).1.simplex_info.dual_feasibility_tolerance =
      m.simplex_info.dual_feasibility_tolerance ∧
    (correct_dual_step tau (m, w) i).1.random.fractionStream =
      m.random.fractionStream ∧
    (∀ v, v ≠ i → (correct_dual_step tau (m, w) i).1.simplex_info.workDual v =
      m.simplex_info.workDual v) ∧
    (∀ v, v ≠ i → (correct_dual_step tau (m, w) i).1.simplex_info.workCost v =
      m.simplex_info.workCost v) ∧
    (∀ v, v ≠ i →
      (correct_dual_step tau (m, w) i).1.simplex_basis.nonbasicMove v =
      m.simplex_basis.nonbasicMove v) ∧
    (∀ v, v ≠ i → (correct_dual_step tau (m, w) i).1.simplex_info.workValue v =
      m.simplex_info.workValue v) ∧
    (shift_trigger_tau tau m i →
      (correct_dual_step tau (m, w) i).1.random.fractionIdx =
        m.random.fractionIdx + 1 ∧
      (correct_dual_step tau (m, w) i).1.simplex_info.costs_perturbed = 1) ∧
    (¬shift_trigger_tau tau m i →
      (correct_dual_step tau (m, w) i).1.random.fractionIdx =
        m.random.fractionIdx ∧
      (correct_dual_step tau (m, w) i).1.simplex_info.costs_perturbed =
        m.simplex_info.costs_perturbed) := by
  simp only [correct_dual_step, flip_bound, HighsRandomState.fraction]
  split_ifs with h1 h2 h3 h4 h5 h6 h7
  · -- free variable, dual infeasibility counted
    exact ⟨rfl, rfl, rfl, rfl, rfl, rfl, rfl, fun v hv => rfl, fun v hv => rfl,
      fun v hv => rfl, fun v hv => rfl,
      fun ht => absurd h2 ht.2.1, fun _ => ⟨rfl, rfl⟩⟩
  · -- free variable, dual feasible
    exact ⟨rfl, rfl, rfl, rfl, rfl, rfl, rfl, fun v hv => rfl, fun v hv => rfl,
      fun v hv => rfl, fun v hv => rfl,
      fun ht => absurd h2 ht.2.1, fun _ => ⟨rfl, rfl⟩⟩
  · -- boxed variable: flip to the lower bound
    exact ⟨rfl, rfl, rfl, rfl, rfl, rfl, rfl, fun v hv => rfl, fun v hv => rfl,
      fun v hv => Function.update_noteq hv _ _,
      fun v hv => Function.update_noteq hv _ _,
      fun ht => absurd h5 ht.2.2.2, fun _ => ⟨rfl, rfl⟩⟩
  · -- boxed variable: flip to the upper bound
    exact ⟨rfl, rfl, rfl, rfl, rfl, rfl, rfl, fun v hv => rfl, fun v hv => rfl,
      fun v hv => Function.update_noteq hv _ _,
      fun v hv => Function.update_noteq hv _ _,
      fun ht => absurd h5 ht.2.2.2, fun _ => ⟨rfl, rfl⟩⟩
  · -- cost shift, move = +1
    exact ⟨rfl, rfl, rfl, rfl, rfl, rfl, rfl,
      fun v hv => Function.update_noteq hv _ _,
      fun v hv => Function.update_noteq hv _ _,
      fun v hv => rfl, fun v hv => rfl,
      fun _ => ⟨rfl, rfl⟩, fun hnt => absurd ⟨h1, h2, h4, h5⟩ hnt⟩
  · -- cost shift, move ≠ +1
    exact ⟨rfl, rfl, rfl, rfl, rfl, rfl, rfl,
      fun v hv => Function.update_noteq hv _ _,
      fun v hv => Function.update_noteq hv _ _,
      fun v hv => rfl, fun v hv => rfl,
      fun _ => ⟨rfl, rfl⟩, fun hnt => absurd ⟨h1, h2, h4, h5⟩ hnt⟩
  · -- dual feasible: untouched
    exact ⟨rfl, rfl, rfl, rfl, rfl, rfl, rfl, fun v hv => rfl, fun v hv => rfl,
      fun v hv => rfl, fun v hv => rfl,
      fun ht => absurd ht.2.2.1 h4, fun _ => ⟨rfl, rfl⟩⟩
  · -- basic variable: untouched
    exact ⟨rfl, rfl, rfl, rfl, rfl, rfl, rfl, fun v hv => rfl, fun v hv => rfl,
      fun v hv => rfl, fun v hv => rfl,
      fun ht => absurd ht.1 h1, fun _ => ⟨rfl, rfl⟩⟩

/-- Folding `correct_dual_step` over a duplicate-free list of variables
leaves every variable outside the list untouched, never writes
`workShift`, the bounds, the flags or the LP, consumes one random draw
per triggered cost shift, and never resets `costs_perturbed`. -/
theorem correct_dual_fold (tau : ℚ) :
    ∀ (l : List ℕ) (m : HighsModelObject) (w : ℕ), l.Nodup →
    (l.foldl (correct_dual_step tau) (m, w)).1.simplex_info.workShift =
      m.simplex_info.workShift ∧
    (l.foldl (correct_dual_step tau) (m, w)).1.simplex_info.workLower =
      m.simplex_info.workLower ∧
    (l.foldl (correct_dual_step tau) (m, w)).1.simplex_info.workUpper =
      m.simplex_info.workUpper ∧
    (l.foldl (correct_dual_step tau) (m, w)).1.simplex_basis.nonbasicFlag =
      m.simplex_basis.nonbasicFlag ∧
    (l.foldl (correct_dual_step tau) (m, w)).1.simplex_lp = m.simplex_lp ∧
    (l.foldl (correct_dual_step tau)
      (m, w)).1.simplex_info.dual_feasibility_tolerance =
      m.simplex_info.dual_feasibility_tolerance ∧
    (l.foldl (correct_dual_step tau) (m, w)).1.random.fractionStream =
      m.random.fractionStream ∧
    (∀ v, v ∉ l →
      (l.foldl (correct_dual_step tau) (m, w)).1.simplex_info.workDual v =
      m.simplex_info.workDual v) ∧
    (∀ v, v ∉ l →
      (l.foldl (correct_dual_step tau) (m, w)).1.simplex_info.workCost v =
      m.simplex_info.workCost v) ∧
    (∀ v, v ∉ l →
      (l.foldl (correct_dual_step tau) (m, w)).1.simplex_basis.nonbasicMove v =
      m.simplex_basis.nonbasicMove v) ∧
    (∀ v, v ∉ l →
      (l.foldl (correct_dual_step tau) (m, w)).1.simplex_info.workValue v =
      m.simplex_info.workValue v) ∧
    (l.foldl (correct_dual_step tau) (m, w)).1.random.fractionIdx =
      m.random.fractionIdx +
        l.countP (fun i => decide (shift_trigger_tau tau m i)) ∧
    (m.simplex_info.costs_perturbed = 1 →
      (l.foldl (correct_dual_step tau) (m, w)).1.simplex_info.costs_perturbed
        = 1) := by
  intro l
  induction l with
  | nil =>
      intro m w _
      refine ⟨rfl, rfl, rfl, rfl, rfl, rfl, rfl, fun v _ => rfl, fun v _ => rfl,
        fun v _ => rfl, fun v _ => rfl, by simp, fun h => h⟩
  | cons i t ih =>
      intro m w hnd
      have hit : i ∉ t := (List.nodup_cons.mp hnd).1
      have hndt : t.Nodup := (List.nodup_cons.mp hnd).2
      obtain ⟨sShift, sLow, sUp, sFlag, sLp, sTol, sStream, sDual, sCost, sMove,
        sVal, sPos, sNeg⟩ := correct_dual_step_effects tau m w i
      have hfold : (i :: t).foldl (correct_dual_step tau) (m, w) =
          t.foldl (correct_dual_step tau)
            ((correct_dual_step tau (m, w) i).1,
             (correct_dual_step tau (m, w) i).2) := by
        rw [List.foldl_cons]
      obtain ⟨iShift, iLow, iUp, iFlag, iLp, iTol, iStream, iDual, iCost, iMove,
        iVal, iIdx, iCp⟩ :=
        ih (correct_dual_step tau (m, w) i).1
          (correct_dual_step tau (m, w) i).2 hndt
      have htrig : ∀ x ∈ t,
          shift_trigger_tau tau (correct_dual_step tau (m, w) i).1 x ↔
          shift_trigger_tau tau m x := by
        intro x hx
        have hxi : x ≠ i := fun h => hit (h ▸ hx)
        unfold shift_trigger_tau
        rw [sFlag, sLow, sUp, sMove x hxi, sDual x hxi]
      constructor
      · rw [hfold, iShift, sShift]
      refine ⟨?_, ?_, ?_, ?_, ?_, ?_, ?_, ?_, ?_, ?_, ?_, ?_⟩
      · rw [hfold, iLow, sLow]
      · rw [hfold, iUp, sUp]
      · rw [hfold, iFlag, sFlag]
      · rw [hfold, iLp, sLp]
      · rw [hfold, iTol, sTol]
      · rw [hfold, iStream, sStream]
      · intro v hv
        have hvt : v ∉ t := fun h => hv (List.mem_cons_of_mem i h)
        have hvi : v ≠ i := fun h => hv (h ▸ List.mem_cons_self i t)
        rw [hfold, iDual v hvt, sDual v hvi]
      · intro v hv
        have hvt : v ∉ t := fun h => hv (List.mem_cons_of_mem i h)
        have hvi : v ≠ i := fun h => hv (h ▸ List.mem_cons_self i t)
        rw [hfold, iCost v hvt, sCost v hvi]
      · intro v hv
        have hvt : v ∉ t := fun h => hv (List.mem_cons_of_mem i h)
        have hvi : v ≠ i := fun h => hv (h ▸ List.mem_cons_self i t)
        rw [hfold, iMove v hvt, sMove v hvi]
      · intro v hv
        have hvt : v ∉ t := fun h => hv (List.mem_cons_of_mem i h)
        have hvi : v ≠ i := fun h => hv (h ▸ List.mem_cons_self i t)
        rw [hfold, iVal v hvt, sVal v hvi]
      · have hcnt : t.countP
            (fun x => decide (shift_trigger_tau tau
              (correct_dual_step tau (m, w) i).1 x)) =
            t.countP (fun x => decide (shift_trigger_tau tau m x)) := by
          refine List.countP_congr (fun x hx => ?_)
          simp [htrig x hx]
        rw [hfold, iIdx, hcnt, List.countP_cons]
        by_cases h : shift_trigger_tau tau m i
        · rw [(sPos h).1]
          simp [h]
          omega
        · rw [(sNeg h).1]
          simp [h]
      · intro hcp
        rw [hfold]
        refine iCp ?_
        by_cases h : shift_trigger_tau tau m i
        · exact (sPos h).2
        · rw [(sNeg h).2]
          exact hcp

/-- The `correct_dual` iteration at a nonbasic, non-free, dual-infeasible
variable: boxed variables are bound-flipped; the others get their dual set
to `±(1 + ρ)·τ_d` with the next random draw `ρ`, the change added to their
cost, `workShift` untouched, and `costs_perturbed` set. -/
theorem correct_dual_step_at (tau : ℚ) (m : HighsModelObject) (w i : ℕ)
    (hfl : m.simplex_basis.nonbasicFlag i ≠ 0)
    (hnotfree : ¬(m.simplex_info.workLower i = -INF ∧
      m.simplex_info.workUpper i = INF))
    (htr : (m.simplex_basis.nonbasicMove i : ℚ) * m.simplex_info.workDual i
      ≤ -tau) :
    ((m.simplex_info.workLower i ≠ -INF ∧ m.simplex_info.workUpper i ≠ INF) →
      (correct_dual_step tau (m, w) i).1.simplex_basis.nonbasicMove i =
        -m.simplex_basis.nonbasicMove i ∧
      (correct_dual_step tau (m, w) i).1.simplex_info.workValue i =
        (if -m.simplex_basis.nonbasicMove i = 1 then m.simplex_info.workLower i
         else m.simplex_info.workUpper i) ∧
      (correct_dual_step tau (m, w) i).1.simplex_info.workDual i =
        m.simplex_info.workDual i ∧
      (correct_dual_step tau (m, w) i).1.simplex_info.workCost i =
        m.simplex_info.workCost i ∧
      (correct_dual_step tau (m, w) i).1.simplex_info.costs_perturbed =
        m.simplex_info.costs_perturbed) ∧
    (¬(m.simplex_info.workLower i ≠ -INF ∧ m.simplex_info.workUpper i ≠ INF) →
      (correct_dual_step tau (m, w) i).1.simplex_info.workDual i =
        (if m.simplex_basis.nonbasicMove i = 1 then
          (1 + m.random.fractionStream m.random.fractionIdx) * tau
         else -(1 + m.random.fractionStream m.random.fractionIdx) * tau) ∧
      (correct_dual_step tau (m, w) i).1.simplex_info.workCost i =
        m.simplex_info.workCost i +
          ((correct_dual_step tau (m, w) i).1.simplex_info.workDual i -
            m.simplex_info.workDual i) ∧
      (correct_dual_step tau (m, w) i).1.simplex_info.costs_perturbed = 1) := by
  simp only [correct_dual_step, flip_bound, HighsRandomState.fraction]
  rw [if_pos hfl, if_neg hnotfree, if_pos htr]
  constructor
  · intro hboxed
    rw [if_pos hboxed]
    exact ⟨Function.update_same _ _ _, Function.update_same _ _ _, rfl, rfl, rfl⟩
  · intro hboxed
    rw [if_neg hboxed]
    by_cases h5 : m.simplex_basis.nonbasicMove i = (1 : ℤ)
    · rw [if_pos h5, if_pos h5]
      exact ⟨Function.update_same _ _ _, by simp [Function.update_same], rfl⟩
    · rw [if_neg h5, if_neg h5]
      exact ⟨Function.update_same _ _ _, by simp [Function.update_same], rfl⟩

/-! ## Option-traversal lemmas for the transposition pattern checks -/

/-- A list all of whose images are `some` traverses to `some`. -/
theorem mapM_eq_some_of_forall {α β : Type} (f : α → Option β) :
    ∀ l : List α, (∀ a ∈ l, (f a).isSome = true) →
      ∃ l', l.mapM f = some l' := by
  intro l
  induction l with
  | nil => exact fun _ => ⟨[], rfl⟩
  | cons a t ih =>
      intro h
      obtain ⟨b, hb⟩ :=
        Option.isSome_iff_exists.mp (h a (List.mem_cons_self a t))
      obtain ⟨l', hl'⟩ := ih (fun x hx => h x (List.mem_cons_of_mem a hx))
      exact ⟨b :: l', by rw [List.mapM_cons, hb, hl']; rfl⟩

/-- If a list traverses to `some`, every image is `some`. -/
theorem forall_of_mapM_eq_some {α β : Type} (f : α → Option β) :
    ∀ (l : List α) (l' : List β), l.mapM f = some l' →
      ∀ a ∈ l, (f a).isSome = true := by
  intro l
  induction l with
  | nil => intro l' _ a ha; exact absurd ha (List.not_mem_nil a)
  | cons x t ih =>
      intro l' h a ha
      rw [List.mapM_cons] at h
      cases hfx : f x with
      | none => rw [hfx] at h; simp at h
      | some b =>
          rcases List.mem_cons.mp ha with rfl | hat
          · simp [hfx]
          · rw [hfx] at h
            cases hmt : t.mapM f with
            | none => rw [hmt] at h; simp at h
            | some bs => exact ih bs hmt a hat

/-- When the transposition conditions hold and the LP is not already
transposed, `transpose_simplex_lp` records `LpAction::TRANSPOSE`. -/
theorem transpose_completes (m : HighsModelObject)
    (hT : m.simplex_lp_status.is_transposed = false)
    (hok : transpose_ok m.lp) :
    (transpose_simplex_lp m).simplex_lp_status =
      update_simplex_lp_status m.simplex_lp_status LpAction.TRANSPOSE := by
  obtain ⟨hr, hcols, hrows⟩ := hok
  obtain ⟨cl, hcl⟩ :=
    mapM_eq_some_of_forall
      (fun j => transpose_col_bounds (m.lp.colCost.getD j 0)
        (m.lp.colLower.getD j 0) (m.lp.colUpper.getD j 0))
      (List.range m.lp.numCol)
      (fun j hj => hcols j (List.mem_range.mp hj))
  obtain ⟨rl, hrl⟩ :=
    mapM_eq_some_of_forall
      (fun i => transpose_row_data (m.lp.rowLower.getD i 0)
        (m.lp.rowUpper.getD i 0))
      (List.range m.lp.numRow)
      (fun i hi => hrows i (List.mem_range.mp hi))
  simp only [transpose_simplex_lp, hT, Bool.false_eq_true, if_false, hr,
    hcl, hrl]

/-- When `transpose_simplex_lp` skips (already transposed) or cancels (the
size test or a bound pattern fails), the model is returned untouched. -/
theorem transpose_skip_cancel (m : HighsModelObject)
    (h : m.simplex_lp_status.is_transposed = true ∨ ¬ transpose_ok m.lp) :
    transpose_simplex_lp m = m := by
  by_cases hT : m.simplex_lp_status.is_transposed = true
  · simp only [transpose_simplex_lp, hT, if_true]
  · have hT' : m.simplex_lp_status.is_transposed = false := by
      revert hT; cases m.simplex_lp_status.is_transposed <;> simp
    have hnok : ¬ transpose_ok m.lp := by
      rcases h with h | h
      · exact absurd h hT
      · exact h
    by_cases hr : transposeRatioCancel m.lp.numCol m.lp.numRow = true
    · simp only [transpose_simplex_lp, hT', Bool.false_eq_true, if_false, hr,
        if_true]
    · have hr' : transposeRatioCancel m.lp.numCol m.lp.numRow = false := by
        revert hr; cases transposeRatioCancel m.lp.numCol m.lp.numRow <;> simp
      cases hcl : (List.range m.lp.numCol).mapM
          (fun j => transpose_col_bounds (m.lp.colCost.getD j 0)
            (m.lp.colLower.getD j 0) (m.lp.colUpper.getD j 0)) with
      | none =>
          simp only [transpose_simplex_lp, hT', Bool.false_eq_true, if_false,
            hr', hcl]
      | some cl =>
          cases hrl : (List.range m.lp.numRow).mapM
              (fun i => transpose_row_data (m.lp.rowLower.getD i 0)
                (m.lp.rowUpper.getD i 0)) with
          | none =>
              simp only [transpose_simplex_lp, hT', Bool.false_eq_true,
                if_false, hr', hcl, hrl]
          | some rl =>
              exfalso
              refine hnok ⟨hr', ?_, ?_⟩
              · intro j hj
                exact forall_of_mapM_eq_some _ _ cl hcl j
                  (List.mem_range.mpr hj)
              · intro i hi
                exact forall_of_mapM_eq_some _ _ rl hrl i
                  (List.mem_range.mpr hi)

/-! ## Theorems -/

/-- C3 (amended): in `correct_dual`, a nonbasic non-free variable `j`
whose dual infeasibility triggers correction
(`nonbasicMove[j]·workDual[j] ≤ −τ_d`) is treated as follows: if it has
exactly one finite bound (not boxed), its dual is set to `(1+ρ)·τ_d` with
the sign given by the current move (`ρ` the next random fraction) and the
change `new − old` is accumulated into `workCost[j]` — `workShift[j]` is
left unchanged — with `costs_perturbed` recorded; a boxed variable is
instead bound-flipped. -/
theorem correct_dual_spec (m : HighsModelObject) (j : ℕ)
    (hj : j < m.simplex_lp.numCol + m.simplex_lp.numRow)
    (hflag : m.simplex_basis.nonbasicFlag j ≠ 0)
    (hnotfree : ¬(m.simplex_info.workLower j = -INF ∧
      m.simplex_info.workUpper j = INF))
    (htrig : (m.simplex_basis.nonbasicMove j : ℚ) * m.simplex_info.workDual j
      ≤ -m.simplex_info.dual_feasibility_tolerance) :
    (¬(m.simplex_info.workLower j ≠ -INF ∧ m.simplex_info.workUpper j ≠ INF) →
      (correct_dual m).1.simplex_info.workDual j =
        (if m.simplex_basis.nonbasicMove j = 1 then
          (1 + m.random.fractionStream
            (m.random.fractionIdx + shifts_before m j)) *
            m.simplex_info.dual_feasibility_tolerance
         else
          -(1 + m.random.fractionStream
            (m.random.fractionIdx + shifts_before m j)) *
            m.simplex_info.dual_feasibility_tolerance) ∧
      (correct_dual m).1.simplex_info.workCost j =
        m.simplex_info.workCost j +
          ((correct_dual m).1.simplex_info.workDual j -
            m.simplex_info.workDual j) ∧
      (correct_dual m).1.simplex_info.workShift j =
        m.simplex_info.workShift j ∧
      (correct_dual m).1.simplex_info.costs_perturbed = 1) ∧
    ((m.simplex_info.workLower j ≠ -INF ∧ m.simplex_info.workUpper j ≠ INF) →
      (correct_dual m).1.simplex_basis.nonbasicMove j =
        -m.simplex_basis.nonbasicMove j ∧
      (correct_dual m).1.simplex_info.workValue j =
        (if -m.simplex_basis.nonbasicMove j = 1 then
          m.simplex_info.workLower j else m.simplex_info.workUpper j) ∧
      (correct_dual m).1.simplex_info.workDual j =
        m.simplex_info.workDual j ∧
      (correct_dual m).1.simplex_info.workCost j =
        m.simplex_info.workCost j ∧
      (correct_dual m).1.simplex_info.workShift j =
        m.simplex_info.workShift j) := by
  set tau := m.simplex_info.dual_feasibility_tolerance with htau
  have hcd : correct_dual m =
      (List.range (m.simplex_lp.numCol + m.simplex_lp.numRow)).foldl
        (correct_dual_step tau) (m, 0) := rfl
  have key : ∀ n, j < n →
      ((¬(m.simplex_info.workLower j ≠ -INF ∧
          m.simplex_info.workUpper j ≠ INF) →
        ((List.range n).foldl (correct_dual_step tau)
            (m, 0)).1.simplex_info.workDual j =
          (if m.simplex_basis.nonbasicMove j = 1 then
            (1 + m.random.fractionStream
              (m.random.fractionIdx + shifts_before m j)) * tau
           else
            -(1 + m.random.fractionStream
              (m.random.fractionIdx + shifts_before m j)) * tau) ∧
        ((List.range n).foldl (correct_dual_step tau)
            (m, 0)).1.simplex_info.workCost j =
          m.simplex_info.workCost j +
            (((List.range n).foldl (correct_dual_step tau)
              (m, 0)).1.simplex_info.workDual j - m.simplex_info.workDual j) ∧
        ((List.range n).foldl (correct_dual_step tau)
            (m, 0)).1.simplex_info.workShift j =
          m.simplex_info.workShift j ∧
        ((List.range n).foldl (correct_dual_step tau)
            (m, 0)).1.simplex_info.costs_perturbed = 1) ∧
      ((m.simplex_info.workLower j ≠ -INF ∧
          m.simplex_info.workUpper j ≠ INF) →
        ((List.range n).foldl (correct_dual_step tau)
            (m, 0)).1.simplex_basis.nonbasicMove j =
          -m.simplex_basis.nonbasicMove j ∧
        ((List.range n).foldl (correct_dual_step tau)
            (m, 0)).1.simplex_info.workValue j =
          (if -m.simplex_basis.nonbasicMove j = 1 then
            m.simplex_info.workLower j else m.simplex_info.workUpper j) ∧
        ((List.range n).foldl (correct_dual_step tau)
            (m, 0)).1.simplex_info.workDual j =
          m.simplex_info.workDual j ∧
        ((List.range n).foldl (correct_dual_step tau)
            (m, 0)).1.simplex_info.workCost j =
          m.simplex_info.workCost j ∧
        ((List.range n).foldl (correct_dual_step tau)
            (m, 0)).1.simplex_info.workShift j =
          m.simplex_info.workShift j)) := by
    intro n
    induction n with
    | zero => intro h; exact absurd h (Nat.not_lt_zero j)
    | succ k ih =>
      intro hk
      by_cases hkj : j < k
      · -- the step at k leaves variable j and workShift alone
        obtain ⟨A, B⟩ := ih hkj
        have hfold : (List.range (k + 1)).foldl (correct_dual_step tau)
            (m, 0) =
            correct_dual_step tau
              (((List.range k).foldl (correct_dual_step tau) (m, 0)).1,
               ((List.range k).foldl (correct_dual_step tau) (m, 0)).2) k := by
          rw [List.range_succ, List.foldl_append, List.foldl_cons,
            List.foldl_nil, Prod.mk.eta]
        obtain ⟨sShift, _, _, _, _, _, _, sDual, sCost, sMove, sVal, sPos,
          sNeg⟩ :=
          correct_dual_step_effects tau
            ((List.range k).foldl (correct_dual_step tau) (m, 0)).1
            ((List.range k).foldl (correct_dual_step tau) (m, 0)).2 k
        have hjk : j ≠ k := Nat.ne_of_lt hkj
        constructor
        · intro hb
          obtain ⟨d, c, s, p⟩ := A hb
          refine ⟨?_, ?_, ?_, ?_⟩
          · rw [hfold, sDual j hjk, d]
          · rw [hfold, sCost j hjk, sDual j hjk, c]
          · rw [hfold, sShift, s]
          · rw [hfold]
            by_cases htk : shift_trigger_tau tau
                ((List.range k).foldl (correct_dual_step tau) (m, 0)).1 k
            · exact (sPos htk).2
            · rw [(sNeg htk).2]
              exact p
        · intro hb
          obtain ⟨mv, va, d, c, s⟩ := B hb
          refine ⟨?_, ?_, ?_, ?_, ?_⟩
          · rw [hfold, sMove j hjk, mv]
          · rw [hfold, sVal j hjk, va]
          · rw [hfold, sDual j hjk, d]
          · rw [hfold, sCost j hjk, c]
          · rw [hfold, sShift, s]
      · -- k = j: the step at j itself
        have hkeq : k = j := by omega
        subst hkeq
        have hfold : (List.range (k + 1)).foldl (correct_dual_step tau)
            (m, 0) =
            correct_dual_step tau
              (((List.range k).foldl (correct_dual_step tau) (m, 0)).1,
               ((List.range k).foldl (correct_dual_step tau) (m, 0)).2) k := by
          rw [List.range_succ, List.foldl_append, List.foldl_cons,
            List.foldl_nil, Prod.mk.eta]
        obtain ⟨fShift, fLow, fUp, fFlag, _, _, fStream, fDual, fCost, fMove,
          fVal, fIdx, _⟩ :=
          correct_dual_fold tau (List.range k) m 0 (List.nodup_range k)
        have hjr : k ∉ List.range k := by simp
        have hfl' :
            ((List.range k).foldl (correct_dual_step tau)
              (m, 0)).1.simplex_basis.nonbasicFlag k ≠ 0 := by
          rw [fFlag]; exact hflag
        have hnf' :
            ¬(((List.range k).foldl (correct_dual_step tau)
                (m, 0)).1.simplex_info.workLower k = -INF ∧
              ((List.range k).foldl (correct_dual_step tau)
                (m, 0)).1.simplex_info.workUpper k = INF) := by
          rw [fLow, fUp]; exact hnotfree
        have htr' :
            (((List.range k).foldl (correct_dual_step tau)
                (m, 0)).1.simplex_basis.nonbasicMove k : ℚ) *
              ((List.range k).foldl (correct_dual_step tau)
                (m, 0)).1.simplex_info.workDual k ≤ -tau := by
          rw [fMove k hjr, fDual k hjr]; exact htrig
        obtain ⟨Sboxed, Sshift⟩ :=
          correct_dual_step_at tau
            ((List.range k).foldl (correct_dual_step tau) (m, 0)).1
            ((List.range k).foldl (correct_dual_step tau) (m, 0)).2 k
            hfl' hnf' htr'
        obtain ⟨sShift, _, _, _, _, _, _, _, _, _, _, _, _⟩ :=
          correct_dual_step_effects tau
            ((List.range k).foldl (correct_dual_step tau) (m, 0)).1
            ((List.range k).foldl (correct_dual_step tau) (m, 0)).2 k
        have hsb : (List.range k).countP
            (fun i => decide (shift_trigger_tau tau m i)) =
            shifts_before m k := rfl
        constructor
        · intro hb
          have hb' :
              ¬(((List.range k).foldl (correct_dual_step tau)
                  (m, 0)).1.simplex_info.workLower k ≠ -INF ∧
                ((List.range k).foldl (correct_dual_step tau)
                  (m, 0)).1.simplex_info.workUpper k ≠ INF) := by
            rw [fLow, fUp]; exact hb
          obtain ⟨d, c, p⟩ := Sshift hb'
          refine ⟨?_, ?_, ?_, ?_⟩
          · rw [hfold, d, fMove k hjr, fStream, fIdx, hsb]
          · rw [hfold, c, fCost k hjr, fDual k hjr]
          · rw [hfold, sShift, fShift]
          · rw [hfold, p]
        · intro hb
          have hb' :
              ((List.range k).foldl (correct_dual_step tau)
                  (m, 0)).1.simplex_info.workLower k ≠ -INF ∧
                ((List.range k).foldl (correct_dual_step tau)
                  (m, 0)).1.simplex_info.workUpper k ≠ INF := by
            rw [fLow, fUp]; exact hb
          obtain ⟨mv, va, d, c, p⟩ := Sboxed hb'
          refine ⟨?_, ?_, ?_, ?_, ?_⟩
          · rw [hfold, mv, fMove k hjr]
          · rw [hfold, va, fMove k hjr, fLow, fUp]
          · rw [hfold, d, fDual k hjr]
          · rw [hfold, c, fCost k hjr]
          · rw [hfold, sShift, fShift]
  have hmain := key (m.simplex_lp.numCol + m.simplex_lp.numRow) hj
  rw [hcd]
  exact hmain

/-- C3 counterexample: at `dualCorrectionModel` the dual of variable 0 is
corrected (its new value is `(1+ρ)·τ_d`) and the change `new − old` is
accumulated into `workCost[0]`, but `workShift[0]` stays 0, not
`workShift[0] + (new − old)` as the claim states. -/
theorem correct_dual_workShift_cex :
    (correct_dual dualCorrectionModel).1.simplex_info.workShift 0 ≠
      dualCorrectionModel.simplex_info.workShift 0 +
        ((correct_dual dualCorrectionModel).1.simplex_info.workDual 0 -
          dualCorrectionModel.simplex_info.workDual 0) ∧
    (correct_dual dualCorrectionModel).1.simplex_info.workDual 0 =
      (1 + 1 / 2) * (1 / 10 ^ 7) ∧
    (correct_dual dualCorrectionModel).1.simplex_info.workCost 0 =
      dualCorrectionModel.simplex_info.workCost 0 +
        ((correct_dual dualCorrectionModel).1.simplex_info.workDual 0 -
          dualCorrectionModel.simplex_info.workDual 0) := by
  decide!

/-- C3 witness: on `dualCorrectionModel` the amended claim's hypotheses
hold for variable 0 and the cost-shift branch applies. -/
theorem correct_dual_spec_witness :
    (correct_dual dualCorrectionModel).1.simplex_info.workDual 0 =
      (1 + 1 / 2) * (1 / 10 ^ 7) ∧
    (correct_dual dualCorrectionModel).1.simplex_info.workShift 0 =
      dualCorrectionModel.simplex_info.workShift 0 ∧
    (correct_dual dualCorrectionModel).1.simplex_info.costs_perturbed = 1 := by
  have h := (correct_dual_spec dualCorrectionModel 0 (by decide!) (by decide!)
    (by decide!) (by decide!)).1 (by decide!)
  refine ⟨?_, h.2.2.1, h.2.2.2⟩
  rw [h.1]
  norm_num [dualCorrectionModel, baseModel, baseInfo, baseRandom, shifts_before]

/-- C8: `compute_dual_objective_value` sets `dualObjectiveValue` to the
sum of `workValue[v]*workDual[v]` over the nonbasic variables
(`nonbasicFlag[v] = 1`); in phase 2 (and not in phase 1) the sum is
multiplied by the cost scale and the LP offset is subtracted; the
`has_dual_objective_value` flag is set. -/
theorem compute_dual_objective_value_spec (m : HighsModelObject) (phase : ℤ)
    (hflag : ∀ v < m.simplex_lp.numCol + m.simplex_lp.numRow,
      m.simplex_basis.nonbasicFlag v = 0 ∨ m.simplex_basis.nonbasicFlag v = 1) :
    (compute_dual_objective_value m phase).simplex_lp_status.has_dual_objective_value
        = true ∧
    (phase = 1 →
      (compute_dual_objective_value m phase).simplex_info.dualObjectiveValue =
        ∑ i ∈ Finset.range (m.simplex_lp.numCol + m.simplex_lp.numRow),
          (if m.simplex_basis.nonbasicFlag i = 1 then
            m.simplex_info.workValue i * m.simplex_info.workDual i else 0)) ∧
    (phase = 2 →
      (compute_dual_objective_value m phase).simplex_info.dualObjectiveValue =
        (∑ i ∈ Finset.range (m.simplex_lp.numCol + m.simplex_lp.numRow),
          (if m.simplex_basis.nonbasicFlag i = 1 then
            m.simplex_info.workValue i * m.simplex_info.workDual i else 0)) *
          m.scale.cost - m.simplex_lp.offset) := by
  have hsum :
      (∑ i ∈ Finset.range (m.simplex_lp.numCol + m.simplex_lp.numRow),
        (if m.simplex_basis.nonbasicFlag i ≠ 0 then
          m.simplex_info.workValue i * m.simplex_info.workDual i else 0)) =
      ∑ i ∈ Finset.range (m.simplex_lp.numCol + m.simplex_lp.numRow),
        (if m.simplex_basis.nonbasicFlag i = 1 then
          m.simplex_info.workValue i * m.simplex_info.workDual i else 0) := by
    refine Finset.sum_congr rfl (fun i hi => ?_)
    rcases hflag i (Finset.mem_range.mp hi) with h | h <;> simp [h]
  have hval : ∀ ph : ℤ,
      (compute_dual_objective_value m ph).simplex_info.dualObjectiveValue =
      if ph ≠ 1 then
        (∑ i ∈ Finset.range (m.simplex_lp.numCol + m.simplex_lp.numRow),
          (if m.simplex_basis.nonbasicFlag i ≠ 0 then
            m.simplex_info.workValue i * m.simplex_info.workDual i else 0)) *
          m.scale.cost - m.simplex_lp.offset
      else
        ∑ i ∈ Finset.range (m.simplex_lp.numCol + m.simplex_lp.numRow),
          (if m.simplex_basis.nonbasicFlag i ≠ 0 then
            m.simplex_info.workValue i * m.simplex_info.workDual i else 0) :=
    fun _ => rfl
  refine ⟨rfl, fun hp => ?_, fun hp => ?_⟩ <;> subst hp
  · rw [hval 1, if_neg (by simp), hsum]
  · rw [hval 2, if_pos (by decide), hsum]

/-- C8 witness: at `dualObjModel` in phase 2 the value is
`3·5·2 − 7 = 23`. -/
theorem compute_dual_objective_value_witness :
    (∀ v < dualObjModel.simplex_lp.numCol + dualObjModel.simplex_lp.numRow,
      dualObjModel.simplex_basis.nonbasicFlag v = 0 ∨
        dualObjModel.simplex_basis.nonbasicFlag v = 1) ∧
    (compute_dual_objective_value dualObjModel 2).simplex_info.dualObjectiveValue
      = 23 ∧
    (compute_dual_objective_value dualObjModel
        2).simplex_lp_status.has_dual_objective_value = true := by
  have h := compute_dual_objective_value_spec dualObjModel 2 (by decide)
  refine ⟨by decide, ?_, h.1⟩
  rw [h.2.2 rfl]
  decide!

/-- C9: the final statement of `initialise_basic_index` is
`assert(num_basic_variables = simplex_lp.numRow_ - 1)`, a C assignment:
the asserted value is `numRow − 1` for every input basis, so the assertion
succeeds exactly when `numRow ≠ 1`, independently of the count of basic
variables. -/
theorem initialise_basic_index_assert (m : HighsModelObject) :
    (initialise_basic_index m).2.2 = (m.simplex_lp.numRow : ℤ) - 1 ∧
    ((initialise_basic_index m).2.2 ≠ 0 ↔ m.simplex_lp.numRow ≠ 1) := by
  have h : (initialise_basic_index m).2.2 = (m.simplex_lp.numRow : ℤ) - 1 := rfl
  exact ⟨h, by rw [h]; omega⟩

/-- C1: `compute_factor` performs no repair: whatever rank deficiency
`factor.build()` reports, the basis is left exactly as it was, no second
build happens, the invert flags are set fresh, and 0 is returned (the
`handle_rank_deficiency` call is commented out in the source). -/
theorem compute_factor_no_repair (m : HighsModelObject) (build : BuildResult) :
    (compute_factor m build).2 = 0 ∧
    (compute_factor m build).1.simplex_basis = m.simplex_basis ∧
    (compute_factor m build).1.simplex_lp = m.simplex_lp ∧
    (compute_factor m build).1.simplex_info.update_count = 0 ∧
    (compute_factor m build).1.simplex_lp_status.has_invert = true ∧
    (compute_factor m build).1.simplex_lp_status.has_fresh_invert = true :=
  ⟨rfl, rfl, rfl, rfl, rfl, rfl⟩

/-- C2 counterexample: at `cexPivotModel` both stated invariants hold
before the pivot (and `columnIn = 0` is nonbasic), yet after
`update_pivots(0, 0, -1)` row 1's basic variable has `nonbasicFlag = 1`:
the two invariants alone are not preserved, because `basicIndex` may list
a variable twice. -/
theorem update_pivots_invariants_cex :
    num_basic_variables cexPivotModel = cexPivotModel.simplex_lp.numRow ∧
    basic_index_flags_ok cexPivotModel ∧
    cexPivotModel.simplex_basis.nonbasicFlag 0 = 1 ∧
    ¬ basic_index_flags_ok (update_pivots cexPivotModel 0 0 (-1)) := by
  decide

/-- C2 (amended): for a basis state satisfying the two invariants whose
`basicIndex` entries are in range and pairwise distinct, a pivot with a
nonbasic `columnIn` (in range) preserves both invariants: exactly `numRow`
variables stay basic and every row's basic variable keeps
`nonbasicFlag = 0`. -/
theorem update_pivots_preserves_invariants (m : HighsModelObject)
    (columnIn rowOut : ℕ) (sourceOut : ℤ)
    (hrow : rowOut < m.simplex_lp.numRow)
    (hIn : columnIn < m.simplex_lp.numCol + m.simplex_lp.numRow)
    (hBIlt : ∀ r < m.simplex_lp.numRow,
      m.simplex_basis.basicIndex r < m.simplex_lp.numCol + m.simplex_lp.numRow)
    (hinj : ∀ r1 < m.simplex_lp.numRow, ∀ r2 < m.simplex_lp.numRow,
      m.simplex_basis.basicIndex r1 = m.simplex_basis.basicIndex r2 → r1 = r2)
    (hcount : num_basic_variables m = m.simplex_lp.numRow)
    (hflags : basic_index_flags_ok m)
    (hNonbasic : m.simplex_basis.nonbasicFlag columnIn = 1) :
    num_basic_variables (update_pivots m columnIn rowOut sourceOut) =
      m.simplex_lp.numRow ∧
    basic_index_flags_ok (update_pivots m columnIn rowOut sourceOut) := by
  set numTot := m.simplex_lp.numCol + m.simplex_lp.numRow with hTot
  set f := m.simplex_basis.nonbasicFlag with hf
  set cOut := m.simplex_basis.basicIndex rowOut with hcOut
  have hflag' :
      (update_pivots m columnIn rowOut sourceOut).simplex_basis.nonbasicFlag =
      Function.update (Function.update f columnIn 0) cOut 1 := rfl
  have hbi' :
      (update_pivots m columnIn rowOut sourceOut).simplex_basis.basicIndex =
      Function.update m.simplex_basis.basicIndex rowOut columnIn := rfl
  have h0 : f cOut = 0 := hflags rowOut hrow
  have hne : columnIn ≠ cOut := by
    intro h
    rw [h, h0] at hNonbasic
    exact absurd hNonbasic (by norm_num)
  constructor
  · -- exactly numRow variables stay basic
    have hrepr :
        num_basic_variables (update_pivots m columnIn rowOut sourceOut) =
        ((Finset.range numTot).filter
          (fun v => Function.update (Function.update f columnIn 0) cOut 1 v
            = 0)).card := rfl
    have hsetEq :
        (Finset.range numTot).filter
          (fun v => Function.update (Function.update f columnIn 0) cOut 1 v = 0)
        = insert columnIn
            (((Finset.range numTot).filter (fun v => f v = 0)).erase cOut) := by
      ext v
      by_cases hvOut : v = cOut
      · subst hvOut
        simp [Function.update_same, Ne.symm hne]
      · by_cases hvIn : v = columnIn
        · subst hvIn
          simp [Function.update_noteq hne, Function.update_same,
            Finset.mem_range.mpr hIn]
        · simp [Function.update_noteq hvOut, Function.update_noteq hvIn, hvIn,
            hvOut]
    have hcOutMem :
        cOut ∈ (Finset.range numTot).filter (fun v => f v = 0) :=
      Finset.mem_filter.mpr
        ⟨Finset.mem_range.mpr (hBIlt rowOut hrow), h0⟩
    have hInNotMem :
        columnIn ∉ ((Finset.range numTot).filter (fun v => f v = 0)).erase cOut := by
      intro h
      have := (Finset.mem_filter.mp (Finset.mem_of_mem_erase h)).2
      rw [hNonbasic] at this
      exact absurd this (by norm_num)
    have hcard : num_basic_variables m =
        ((Finset.range numTot).filter (fun v => f v = 0)).card := rfl
    rw [hrepr, hsetEq, Finset.card_insert_of_not_mem hInNotMem,
      Finset.card_erase_of_mem hcOutMem]
    rw [hcard] at hcount
    omega
  · -- every row's basic variable keeps flag 0
    intro r hr
    have hr' : r < m.simplex_lp.numRow := hr
    rw [hflag', hbi']
    by_cases hrOut : r = rowOut
    · subst hrOut
      rw [Function.update_same, Function.update_noteq hne, Function.update_same]
    · rw [Function.update_noteq hrOut]
      have hneOut : m.simplex_basis.basicIndex r ≠ cOut := by
        intro h
        exact hrOut (hinj r hr' rowOut hrow h)
      have hneIn : m.simplex_basis.basicIndex r ≠ columnIn := by
        intro h
        have h1 := hflags r hr'
        rw [h, ← hf] at h1
        omega
      rw [Function.update_noteq hneOut, Function.update_noteq hneIn]
      exact hflags r hr'

/-- C2 witness: on `pivotModel` (one structural, one row, the logical
basic) the pivot bringing variable 0 in on row 0 keeps both invariants. -/
theorem update_pivots_preserves_invariants_witness :
    num_basic_variables pivotModel = pivotModel.simplex_lp.numRow ∧
    pivotModel.simplex_basis.nonbasicFlag 0 = 1 ∧
    (num_basic_variables (update_pivots pivotModel 0 0 (-1)) =
      pivotModel.simplex_lp.numRow ∧
    basic_index_flags_ok (update_pivots pivotModel 0 0 (-1))) :=
  ⟨by decide, by decide,
    update_pivots_preserves_invariants pivotModel 0 0 (-1) (by decide)
      (by decide) (by decide) (by decide) (by decide) (by decide) (by decide)⟩

/-- C10: at `pivotModel` the stored `num_basic_logicals` (1) equals the
count of basic logicals; the pivot replaces the basic logical by a
structural, so the true count drops to 0, but `update_pivots` moves the
counter the other way, to 2: the two `< numCol` tests are inverted. -/
theorem update_pivots_num_basic_logicals_bug :
    pivotModel.simplex_info.num_basic_logicals =
      (count_basic_logicals pivotModel : ℤ) ∧
    (update_pivots pivotModel 0 0 (-1)).simplex_info.num_basic_logicals = 2 ∧
    count_basic_logicals (update_pivots pivotModel 0 0 (-1)) = 0 ∧
    (update_pivots pivotModel 0 0 (-1)).simplex_info.num_basic_logicals ≠
      (count_basic_logicals (update_pivots pivotModel 0 0 (-1)) : ℤ) := by
  decide

/-- C4: on `tightenModel` the original `colLower[0]` is 0, but after
`tighten_simplex_lp` the final `colLower[0]` is below 0: the relaxation
step writes `min(colLower − relax, colLower_0)` where clamping to the
original interval needs `max`, so the lower bound escapes the original
interval. -/
theorem tighten_simplex_lp_bound_escape :
    tightenModel.simplex_lp.colLower.getD 0 0 = 0 ∧
    tightenModel.simplex_lp_status.is_tightened = false ∧
    (tighten_simplex_lp tightenModel).simplex_lp.colLower.getD 0 0 <
      tightenModel.simplex_lp.colLower.getD 0 0 := by
  decide!

/-- C5 (amended): `update_simplex_lp_status` on the TRANSPOSE, SCALE and
PERMUTE actions sets the matching pass flag and clears all ten derived
validity bits, and the transpose, scale and permute passes record exactly
that update when they complete; `tighten_simplex_lp`, however, sets
`is_tightened` directly and leaves the derived validity bits exactly as
they were on entry. -/
theorem prep_pass_status_spec :
    (∀ s : SimplexLpStatus,
      update_simplex_lp_status s LpAction.TRANSPOSE =
        { s with
          is_transposed := true
          has_basis := false
          has_matrix_col_wise := false
          has_matrix_row_wise := false
          has_dual_steepest_edge_weights := false
          has_nonbasic_dual_values := false
          has_basic_primal_values := false
          has_invert := false
          has_fresh_invert := false
          has_fresh_rebuild := false
          has_dual_objective_value := false }) ∧
    (∀ s : SimplexLpStatus,
      update_simplex_lp_status s LpAction.SCALE =
        { s with
          is_scaled := true
          has_basis := false
          has_matrix_col_wise := false
          has_matrix_row_wise := false
          has_dual_steepest_edge_weights := false
          has_nonbasic_dual_values := false
          has_basic_primal_values := false
          has_invert := false
          has_fresh_invert := false
          has_fresh_rebuild := false
          has_dual_objective_value := false }) ∧
    (∀ s : SimplexLpStatus,
      update_simplex_lp_status s LpAction.PERMUTE =
        { s with
          is_permuted := true
          has_basis := false
          has_matrix_col_wise := false
          has_matrix_row_wise := false
          has_dual_steepest_edge_weights := false
          has_nonbasic_dual_values := false
          has_basic_primal_values := false
          has_invert := false
          has_fresh_invert := false
          has_fresh_rebuild := false
          has_dual_objective_value := false }) ∧
    (∀ m : HighsModelObject, m.simplex_lp_status.is_transposed = false →
      transpose_ok m.lp →
      (transpose_simplex_lp m).simplex_lp_status =
        update_simplex_lp_status m.simplex_lp_status LpAction.TRANSPOSE) ∧
    (∀ (rt twoRound : ℚ → ℚ) (m : HighsModelObject),
      m.simplex_lp_status.is_scaled = false →
      (scale_simplex_lp rt twoRound m).simplex_lp_status =
        update_simplex_lp_status m.simplex_lp_status LpAction.SCALE) ∧
    (∀ m : HighsModelObject, m.simplex_lp_status.is_permuted = false →
      (permute_simplex_lp m).simplex_lp_status =
        update_simplex_lp_status m.simplex_lp_status LpAction.PERMUTE) ∧
    (∀ m : HighsModelObject, m.simplex_lp_status.is_tightened = false →
      (tighten_simplex_lp m).simplex_lp_status =
        { m.simplex_lp_status with is_tightened := true }) := by
  refine ⟨fun s => rfl, fun s => rfl, fun s => rfl,
    fun m hT hok => transpose_completes m hT hok, ?_, ?_, ?_⟩
  · intro rt twoRound m hs
    simp only [scale_simplex_lp, hs, Bool.false_eq_true, if_false]
    split <;> rfl
  · intro m hp
    simp only [permute_simplex_lp, hp, Bool.false_eq_true, if_false]
    rfl
  · intro m ht
    simp only [tighten_simplex_lp, ht, Bool.false_eq_true, if_false]

/-- C6: `transpose_simplex_lp` changes anything only when the size test
and every bound pattern pass: if the LP is already transposed, the size
test cancels, or a column or row pattern fails, the model (LP data and
status flags) is returned exactly as it was; when the conditions hold the
transposed flag is recorded via `LpAction::TRANSPOSE`. -/
theorem transpose_simplex_lp_only_when :
    (∀ m : HighsModelObject, m.simplex_lp_status.is_transposed = true →
      transpose_simplex_lp m = m) ∧
    (∀ m : HighsModelObject, ¬ transpose_ok m.lp →
      transpose_simplex_lp m = m) ∧
    (∀ m : HighsModelObject, m.simplex_lp_status.is_transposed = false →
      transpose_ok m.lp →
      (transpose_simplex_lp m).simplex_lp_status.is_transposed = true ∧
      (transpose_simplex_lp m).simplex_lp_status =
        update_simplex_lp_status m.simplex_lp_status LpAction.TRANSPOSE) :=
  ⟨fun m h => transpose_skip_cancel m (Or.inl h),
   fun m h => transpose_skip_cancel m (Or.inr h),
   fun m hT hok =>
    ⟨by rw [transpose_completes m hT hok]; rfl, transpose_completes m hT hok⟩⟩

/-- C6 witness: `transModel` (1 column, 5 rows, compatible bounds) is
actually transposed and its flag set. -/
theorem transpose_simplex_lp_witness :
    transModel.simplex_lp_status.is_transposed = false ∧
    transpose_ok transModel.lp ∧
    (transpose_simplex_lp transModel).simplex_lp_status.is_transposed
      = true := by
  refine ⟨rfl, by decide!, ?_⟩
  rw [(transpose_simplex_lp_only_when.2.2 transModel rfl (by decide!)).2]
  rfl

/-- C5 counterexample: `tighten_simplex_lp` completes on `prepModel`
(`is_tightened` was false and becomes true) but leaves the derived
validity bits set — it does not clear them. -/
theorem tighten_status_not_invalidated_cex :
    prepModel.simplex_lp_status.is_tightened = false ∧
    prepModel.simplex_lp_status.has_basis = true ∧
    (tighten_simplex_lp prepModel).simplex_lp_status.is_tightened = true ∧
    (tighten_simplex_lp prepModel).simplex_lp_status.has_basis = true ∧
    (tighten_simplex_lp prepModel).simplex_lp_status.has_invert = true := by
  decide

/-- C7: when perturbation runs in `initialise_cost` (`perturb ≠ 0` and
`perturb_costs ≠ 0`), `costs_perturbed` is recorded; each structural
column starts from `sense·colCost[j]` and then receives no change if free
or fixed, `+xpert` if only its lower bound is finite, `−xpert` if only its
upper bound is finite, and `±xpert` by the sign of its current working
cost if boxed, where `xpert = (|workCost[j]|+1)·base·(1+ρ_j)` with
`base = 5e-7·bigc`; each logical receives `(0.5 − ρ)·1e-12`. -/
theorem initialise_cost_perturbs (rt : ℚ → ℚ) (m : HighsModelObject)
    (perturb : ℤ) (hp : perturb ≠ 0)
    (hpc : m.simplex_info.perturb_costs ≠ 0) :
    (initialise_cost rt m perturb).simplex_info.costs_perturbed = 1 ∧
    (∀ j < m.simplex_lp.numCol,
      phase2_work_cost m j =
        (m.simplex_lp.sense : ℚ) * m.simplex_lp.colCost.getD j 0) ∧
    (∀ j < m.simplex_lp.numCol,
      (initialise_cost rt m perturb).simplex_info.workCost j =
        (if m.simplex_lp.colLower.getD j 0 = -INF ∧
            m.simplex_lp.colUpper.getD j 0 = INF then
          phase2_work_cost m j
        else if m.simplex_lp.colUpper.getD j 0 = INF then
          phase2_work_cost m j +
            (|phase2_work_cost m j| + 1) *
              perturbation_base rt m.simplex_lp.numCol
                (m.simplex_lp.numCol + m.simplex_lp.numRow)
                (phase2_work_cost m) m.simplex_info.workRange *
              (1 + m.simplex_info.numTotRandomValue j)
        else if m.simplex_lp.colLower.getD j 0 = -INF then
          phase2_work_cost m j -
            (|phase2_work_cost m j| + 1) *
              perturbation_base rt m.simplex_lp.numCol
                (m.simplex_lp.numCol + m.simplex_lp.numRow)
                (phase2_work_cost m) m.simplex_info.workRange *
              (1 + m.simplex_info.numTotRandomValue j)
        else if m.simplex_lp.colLower.getD j 0 ≠
            m.simplex_lp.colUpper.getD j 0 then
          phase2_work_cost m j +
            (if phase2_work_cost m j ≥ 0 then
              (|phase2_work_cost m j| + 1) *
                perturbation_base rt m.simplex_lp.numCol
                  (m.simplex_lp.numCol + m.simplex_lp.numRow)
                  (phase2_work_cost m) m.simplex_info.workRange *
                (1 + m.simplex_info.numTotRandomValue j)
            else
              -((|phase2_work_cost m j| + 1) *
                perturbation_base rt m.simplex_lp.numCol
                  (m.simplex_lp.numCol + m.simplex_lp.numRow)
                  (phase2_work_cost m) m.simplex_info.workRange *
                (1 + m.simplex_info.numTotRandomValue j)))
        else phase2_work_cost m j)) ∧
    (∀ i, m.simplex_lp.numCol ≤ i →
      i < m.simplex_lp.numCol + m.simplex_lp.numRow →
      (initialise_cost rt m perturb).simplex_info.workCost i =
        phase2_work_cost m i +
          (1 / 2 - m.simplex_info.numTotRandomValue i) * (1 / 10 ^ 12)) := by
  have hcond : ¬(perturb = 0 ∨ m.simplex_info.perturb_costs = 0) := by
    intro h
    rcases h with h | h
    · exact hp h
    · exact hpc h
  refine ⟨?_, ?_, ?_, ?_⟩
  · simp only [initialise_cost, initialise_phase2_row_cost,
      initialise_phase2_col_cost]
    rw [if_neg hcond]
  · intro j hj
    have hno : ¬(m.simplex_lp.numCol ≤ j ∧
        j < m.simplex_lp.numCol + m.simplex_lp.numRow) := by omega
    simp only [phase2_work_cost, initialise_phase2_row_cost,
      initialise_phase2_col_cost]
    rw [if_neg hno, if_pos hj]
  · intro j hj
    have hno : ¬(m.simplex_lp.numCol ≤ j ∧
        j < m.simplex_lp.numCol + m.simplex_lp.numRow) := by omega
    simp only [initialise_cost, phase2_work_cost, initialise_phase2_row_cost,
      initialise_phase2_col_cost]
    rw [if_neg hcond]
    simp only [if_neg hno, if_pos hj]
    split_ifs <;> ring_nf
  · intro i hlo hhi
    have hno : ¬(i < m.simplex_lp.numCol) := by omega
    have hyes : m.simplex_lp.numCol ≤ i ∧
        i < m.simplex_lp.numCol + m.simplex_lp.numRow := ⟨hlo, hhi⟩
    simp only [initialise_cost, phase2_work_cost, initialise_phase2_row_cost,
      initialise_phase2_col_cost]
    rw [if_neg hcond]
    simp only [if_neg hno, if_pos hyes, if_pos hhi]

/-- C7 witness: on `costModel` (cost 2, lower bound 0, no upper bound,
`perturb_costs` on) the perturbation hypotheses hold and
`costs_perturbed` is recorded. -/
theorem initialise_cost_perturbs_witness :
    (1 : ℤ) ≠ 0 ∧ costModel.simplex_info.perturb_costs ≠ 0 ∧
    (initialise_cost id costModel 1).simplex_info.costs_perturbed = 1 := by
  have h := initialise_cost_perturbs id costModel 1 (by decide) (by decide)
  exact ⟨by decide, by decide, h.1⟩

end HSimplex
